import Mathlib

/-!
# WinMM wrapper: capability rewriting and interface-name override

A shallow embedding of `src/winmmwrp/WinMMWrapper.cpp`.

Conventions of the embedding
* `size_t`, `WORD`, `DWORD`, `UINT`, `ULONG`, `MMRESULT`, `wchar_t` and `char` values are
  natural numbers; a store into a narrower machine type is written with an explicit
  `% 2 ^ w` (`WORD` is 16 bits, `DWORD`, `UINT`, `ULONG` and `MMVERSION` are 32 bits).
* `std::string` and `std::wstring` are lists of code units.
* A fixed character array such as `szPname` is the list of the code units stored from its
  first element on. The array holds `MAXPNAMELEN` units; a list longer than that records
  units that were stored past the end of the array. Reading the text of an array that holds
  no null stops at the end of the list, where the C code would read on past the array.
  A record whose name stays inside the array (`name_in_bounds`) is read and written as in
  the C code; statements that follow a record through several rules assume it.
* The caller buffer of the interface query is a function from code-unit index to code unit,
  with the index computed as the C code computes it, in `DWORD_PTR`.
* The stock WinMM entry points (`WinMM.h`), the C library text conversions (`mbstowcs`,
  `wcstombs`), `std::wregex` and the JSON library are not part of the source file; they
  are parameters of the embedding.
* Log output (`wrapper_log`, the `log` stream) is not modelled.
-/

namespace WinMMWrapper

/-! ## Basic types -/

/-- Direction of a device: `enum class Direction`. -/
inductive Direction where
  | Input
  | Output
  deriving DecidableEq, Repr

/-- Code units of a `std::wstring`. -/
abbrev wstring := List Nat

/-- Bytes of a `std::string`. -/
abbrev cstring := List Nat

/-- Number of code units of `szPname` (`MAXPNAMELEN` of the Windows SDK). -/
def MAXPNAMELEN : Nat := 32

/-- Size of `wchar_t` in bytes on Windows. -/
def sizeof_wchar_t : Nat := 2

/-- Width in bits of `size_t` and `DWORD_PTR` (64-bit build). -/
def SIZE_BITS : Nat := 64

/-- Return code `MMSYSERR_NOERROR`. -/
def MMSYSERR_NOERROR : Nat := 0

/-- Store into a `WORD`. -/
def to_WORD (n : Nat) : Nat := n % 2 ^ 16

/-- Store into a `DWORD`, `UINT`, `ULONG` or `MMVERSION`. -/
def to_DWORD (n : Nat) : Nat := n % 2 ^ 32

/-- The text a C string pointer denotes: the code units before the first null. -/
def c_str (s : List Nat) : List Nat := s.takeWhile (fun u => u != 0)

/-- The ambient C locale: what `mbstowcs` and `wcstombs` store for a null-free text, and
`MB_CUR_MAX`. -/
structure Locale where
  mbstowcs : cstring → wstring
  wcstombs : wstring → cstring
  MB_CUR_MAX : Nat

/-- Source function `stringToWstring`: a zeroed buffer of `str.size() + 1` units receives the
conversion, and the result is read back up to the first null. -/
def stringToWstring (loc : Locale) (str : cstring) : wstring :=
  c_str ((loc.mbstowcs (c_str str)).take (str.length + 1))

/-- Source function `wstringToString`: a zeroed buffer of `wstr.size() * MB_CUR_MAX + 1` bytes
receives the conversion, and the result is read back up to the first null. -/
def wstringToString (loc : Locale) (wstr : wstring) : cstring :=
  c_str ((loc.wcstombs (c_str wstr)).take (wstr.length * loc.MB_CUR_MAX + 1))

/-- The four native capability shapes a template parameter `dev_caps_struct` ranges over. -/
inductive dev_caps_struct where
  | MIDIINCAPSA
  | MIDIINCAPSW
  | MIDIOUTCAPSA
  | MIDIOUTCAPSW
  deriving DecidableEq, Repr

/-- Source function `CapsDirection`. -/
def CapsDirection : dev_caps_struct → Direction
  | .MIDIINCAPSW => .Input
  | .MIDIINCAPSA => .Input
  | _ => .Output

/-- Character type of a native text buffer. -/
inductive char_type where
  | CHAR
  | WCHAR
  deriving DecidableEq, Repr

/-- Source alias `dev_caps_char_type`: the element type of `szPname`. -/
def dev_caps_char_type : dev_caps_struct → char_type
  | .MIDIINCAPSA => .CHAR
  | .MIDIOUTCAPSA => .CHAR
  | .MIDIINCAPSW => .WCHAR
  | .MIDIOUTCAPSW => .WCHAR

/-- Native input capability record (`MIDIINCAPSA`, `MIDIINCAPSW` of the Windows SDK). -/
structure MIDIINCAPS where
  wMid : Nat
  wPid : Nat
  vDriverVersion : Nat
  szPname : List Nat
  dwSupport : Nat
  deriving DecidableEq, Repr

/-- Native output capability record (`MIDIOUTCAPSA`, `MIDIOUTCAPSW` of the Windows SDK). -/
structure MIDIOUTCAPS where
  wMid : Nat
  wPid : Nat
  vDriverVersion : Nat
  szPname : List Nat
  wTechnology : Nat
  wVoices : Nat
  wNotes : Nat
  wChannelMask : Nat
  dwSupport : Nat
  deriving DecidableEq, Repr

/-- The record type of each native shape. -/
@[reducible]
def dev_caps_struct.record : dev_caps_struct → Type
  | .MIDIINCAPSA => MIDIINCAPS
  | .MIDIINCAPSW => MIDIINCAPS
  | .MIDIOUTCAPSA => MIDIOUTCAPS
  | .MIDIOUTCAPSW => MIDIOUTCAPS

/-- Source struct `midi_dev_caps`: the canonical capability record. -/
structure midi_dev_caps where
  direction : Direction
  man_id : Nat
  prod_id : Nat
  driver_version : Nat
  name : wstring
  technology : Option Nat := none
  voices : Option Nat := none
  notes : Option Nat := none
  channel_mask : Option Nat := none
  support : Option Nat := none
  deriving DecidableEq, Repr

/-- Source function `chars_to_str`: the text of a native character array. -/
def chars_to_str (loc : Locale) (char_t : char_type) (c : List Nat) : wstring :=
  match char_t with
  | .WCHAR => c_str c
  | .CHAR => stringToWstring loc (c_str c)

/-- Source function `to_our_dev_caps`: a native record to the canonical record. The five
output fields are set for the output shapes only. -/
def to_our_dev_caps (loc : Locale) : (T : dev_caps_struct) → T.record → midi_dev_caps
  | .MIDIINCAPSA, v =>
    { direction := CapsDirection .MIDIINCAPSA, man_id := v.wMid, prod_id := v.wPid,
      driver_version := v.vDriverVersion,
      name := chars_to_str loc (dev_caps_char_type .MIDIINCAPSA) v.szPname }
  | .MIDIINCAPSW, v =>
    { direction := CapsDirection .MIDIINCAPSW, man_id := v.wMid, prod_id := v.wPid,
      driver_version := v.vDriverVersion,
      name := chars_to_str loc (dev_caps_char_type .MIDIINCAPSW) v.szPname }
  | .MIDIOUTCAPSA, v =>
    { direction := CapsDirection .MIDIOUTCAPSA, man_id := v.wMid, prod_id := v.wPid,
      driver_version := v.vDriverVersion,
      name := chars_to_str loc (dev_caps_char_type .MIDIOUTCAPSA) v.szPname,
      technology := some v.wTechnology, voices := some v.wVoices, notes := some v.wNotes,
      channel_mask := some v.wChannelMask, support := some v.dwSupport }
  | .MIDIOUTCAPSW, v =>
    { direction := CapsDirection .MIDIOUTCAPSW, man_id := v.wMid, prod_id := v.wPid,
      driver_version := v.vDriverVersion,
      name := chars_to_str loc (dev_caps_char_type .MIDIOUTCAPSW) v.szPname,
      technology := some v.wTechnology, voices := some v.wVoices, notes := some v.wNotes,
      channel_mask := some v.wChannelMask, support := some v.dwSupport }

/-! ## Rules -/

/-- A compiled `std::wregex`, given by the texts that `std::regex_match` accepts for it. -/
structure wregex where
  regex_match : wstring → Bool

/-- Source struct `replace_rule`. -/
structure replace_rule where
  maybe_match_direction : Option Direction := none
  maybe_match_name : Option wregex := none
  maybe_match_man_id : Option Nat := none
  maybe_match_prod_id : Option Nat := none
  maybe_match_driver_version : Option Nat := none
  maybe_replace_name : Option wstring := none
  maybe_replace_man_id : Option Nat := none
  maybe_replace_prod_id : Option Nat := none
  maybe_replace_driver_version : Option Nat := none
  maybe_replace_technology : Option Nat := none
  maybe_replace_voices : Option Nat := none
  maybe_replace_notes : Option Nat := none
  maybe_replace_channel_mask : Option Nat := none
  maybe_replace_support : Option Nat := none
  maybe_replace_interface_name : Option wstring := none

/-- One guarded conjunct of `is_match`:
`if (p.has_value()) { rval = rval && test(p.value()); }`. -/
def match_step {α : Type} (rval : Bool) (p : Option α) (test : α → Bool) : Bool :=
  match p with
  | some x => rval && test x
  | none => rval

/-- Source method `replace_rule::is_match`. -/
def replace_rule.is_match (r : replace_rule) (m : midi_dev_caps) : Bool :=
  let rval := true
  let rval := match_step rval r.maybe_match_direction (fun d => decide (d = m.direction))
  let rval := match_step rval r.maybe_match_name (fun re => re.regex_match m.name)
  let rval := match_step rval r.maybe_match_man_id (fun v => decide (v = m.man_id))
  let rval := match_step rval r.maybe_match_prod_id (fun v => decide (v = m.prod_id))
  let rval := match_step rval r.maybe_match_driver_version
    (fun v => decide (v = m.driver_version))
  rval

/-- One guarded assignment of `apply_in_place`:
`if (p.has_value()) { m.field = p.value(); }`. -/
def replace_step {α : Type} (p : Option α) (assign : α → midi_dev_caps → midi_dev_caps)
    (m : midi_dev_caps) : midi_dev_caps :=
  match p with
  | some v => assign v m
  | none => m

/-- Source method `replace_rule::apply_in_place`: the match result and the record after the
call. -/
def replace_rule.apply_in_place (r : replace_rule) (m : midi_dev_caps) :
    Bool × midi_dev_caps :=
  let matched := r.is_match m
  if matched then
    let m := replace_step r.maybe_replace_name (fun v m => { m with name := v }) m
    let m := replace_step r.maybe_replace_man_id (fun v m => { m with man_id := v }) m
    let m := replace_step r.maybe_replace_prod_id (fun v m => { m with prod_id := v }) m
    let m := replace_step r.maybe_replace_driver_version
      (fun v m => { m with driver_version := v }) m
    let m := replace_step r.maybe_replace_technology
      (fun v m => { m with technology := some v }) m
    let m := replace_step r.maybe_replace_voices (fun v m => { m with voices := some v }) m
    let m := replace_step r.maybe_replace_notes (fun v m => { m with notes := some v }) m
    let m := replace_step r.maybe_replace_channel_mask
      (fun v m => { m with channel_mask := some v }) m
    let m := replace_step r.maybe_replace_support (fun v m => { m with support := some v }) m
    (matched, m)
  else
    (matched, m)

/-- Library functions `wcscpy` and `strcpy` into a character array: the text of `src` and a
null are stored from the first element on, the rest of `dst` keeps its contents. When the
text and its null are longer than `dst`, the result is longer than `dst`: the excess units
are stored past the end of the array. In the C record those units lie over the fields that
follow the array; the list only records that they were stored and how many, and says nothing
of what the following fields or a later read of the name hold. -/
def wcscpy (dst src : List Nat) : List Nat :=
  c_str src ++ [0] ++ dst.drop ((c_str src).length + 1)

/-- The name stored by `apply_in_place_c`: `wcscpy` of the name for a `WCHAR` array, `strcpy`
of `wstringToString` of the name for a `CHAR` array. -/
def write_szPname (loc : Locale) (char_t : char_type) (szPname : List Nat) (name : wstring) :
    List Nat :=
  match char_t with
  | .WCHAR => wcscpy szPname name
  | .CHAR => wcscpy szPname (wstringToString loc name)

/-- Source method `replace_rule::apply_in_place_c`: the match result and the native record
after the call. The `value()` calls of the output shapes read fields that `to_our_dev_caps`
has set and `apply_in_place` never clears (lemma `apply_in_place_output_fields`). The record
after the call is that of the C code as long as the name and its null fit `szPname`
(`name_in_bounds`); for a longer name the list `szPname` grows, and the overwriting of the
fields behind the array by the unbounded copy is not part of the embedding. -/
def replace_rule.apply_in_place_c (loc : Locale) (r : replace_rule) :
    (T : dev_caps_struct) → T.record → Bool × T.record
  | .MIDIINCAPSA, s =>
    let ours := to_our_dev_caps loc .MIDIINCAPSA s
    let (matched, ours) := r.apply_in_place ours
    if matched then
      (matched, { s with
        wMid := to_WORD ours.man_id, wPid := to_WORD ours.prod_id,
        vDriverVersion := to_DWORD ours.driver_version,
        szPname := write_szPname loc (dev_caps_char_type .MIDIINCAPSA) s.szPname ours.name })
    else (matched, s)
  | .MIDIINCAPSW, s =>
    let ours := to_our_dev_caps loc .MIDIINCAPSW s
    let (matched, ours) := r.apply_in_place ours
    if matched then
      (matched, { s with
        wMid := to_WORD ours.man_id, wPid := to_WORD ours.prod_id,
        vDriverVersion := to_DWORD ours.driver_version,
        szPname := write_szPname loc (dev_caps_char_type .MIDIINCAPSW) s.szPname ours.name })
    else (matched, s)
  | .MIDIOUTCAPSA, s =>
    let ours := to_our_dev_caps loc .MIDIOUTCAPSA s
    let (matched, ours) := r.apply_in_place ours
    if matched then
      (matched, { s with
        wMid := to_WORD ours.man_id, wPid := to_WORD ours.prod_id,
        vDriverVersion := to_DWORD ours.driver_version,
        szPname := write_szPname loc (dev_caps_char_type .MIDIOUTCAPSA) s.szPname ours.name,
        wTechnology := to_WORD (ours.technology.getD 0),
        wVoices := to_WORD (ours.voices.getD 0),
        wNotes := to_WORD (ours.notes.getD 0),
        wChannelMask := to_WORD (ours.channel_mask.getD 0),
        dwSupport := to_DWORD (ours.support.getD 0) })
    else (matched, s)
  | .MIDIOUTCAPSW, s =>
    let ours := to_our_dev_caps loc .MIDIOUTCAPSW s
    let (matched, ours) := r.apply_in_place ours
    if matched then
      (matched, { s with
        wMid := to_WORD ours.man_id, wPid := to_WORD ours.prod_id,
        vDriverVersion := to_DWORD ours.driver_version,
        szPname := write_szPname loc (dev_caps_char_type .MIDIOUTCAPSW) s.szPname ours.name,
        wTechnology := to_WORD (ours.technology.getD 0),
        wVoices := to_WORD (ours.voices.getD 0),
        wNotes := to_WORD (ours.notes.getD 0),
        wChannelMask := to_WORD (ours.channel_mask.getD 0),
        dwSupport := to_DWORD (ours.support.getD 0) })
    else (matched, s)

/-- The field `wMid` of a native record of any shape. -/
def dev_caps_struct.wMid : (T : dev_caps_struct) → T.record → Nat
  | .MIDIINCAPSA, s => s.wMid
  | .MIDIINCAPSW, s => s.wMid
  | .MIDIOUTCAPSA, s => s.wMid
  | .MIDIOUTCAPSW, s => s.wMid

/-- The field `wPid` of a native record of any shape. -/
def dev_caps_struct.wPid : (T : dev_caps_struct) → T.record → Nat
  | .MIDIINCAPSA, s => s.wPid
  | .MIDIINCAPSW, s => s.wPid
  | .MIDIOUTCAPSA, s => s.wPid
  | .MIDIOUTCAPSW, s => s.wPid

/-- The field `vDriverVersion` of a native record of any shape. -/
def dev_caps_struct.vDriverVersion : (T : dev_caps_struct) → T.record → Nat
  | .MIDIINCAPSA, s => s.vDriverVersion
  | .MIDIINCAPSW, s => s.vDriverVersion
  | .MIDIOUTCAPSA, s => s.vDriverVersion
  | .MIDIOUTCAPSW, s => s.vDriverVersion

/-- The field `dwSupport` of a native record of any shape. -/
def dev_caps_struct.dwSupport : (T : dev_caps_struct) → T.record → Nat
  | .MIDIINCAPSA, s => s.dwSupport
  | .MIDIINCAPSW, s => s.dwSupport
  | .MIDIOUTCAPSA, s => s.dwSupport
  | .MIDIOUTCAPSW, s => s.dwSupport

/-- The field `wTechnology` of a native record, which the output shapes have and the input
shapes have not. -/
def dev_caps_struct.wTechnology : (T : dev_caps_struct) → T.record → Option Nat
  | .MIDIINCAPSA, _ => none
  | .MIDIINCAPSW, _ => none
  | .MIDIOUTCAPSA, s => some s.wTechnology
  | .MIDIOUTCAPSW, s => some s.wTechnology

/-- The field `wVoices` of a native record, which the output shapes have and the input
shapes have not. -/
def dev_caps_struct.wVoices : (T : dev_caps_struct) → T.record → Option Nat
  | .MIDIINCAPSA, _ => none
  | .MIDIINCAPSW, _ => none
  | .MIDIOUTCAPSA, s => some s.wVoices
  | .MIDIOUTCAPSW, s => some s.wVoices

/-- The field `wNotes` of a native record, which the output shapes have and the input
shapes have not. -/
def dev_caps_struct.wNotes : (T : dev_caps_struct) → T.record → Option Nat
  | .MIDIINCAPSA, _ => none
  | .MIDIINCAPSW, _ => none
  | .MIDIOUTCAPSA, s => some s.wNotes
  | .MIDIOUTCAPSW, s => some s.wNotes

/-- The field `wChannelMask` of a native record, which the output shapes have and the input
shapes have not. -/
def dev_caps_struct.wChannelMask : (T : dev_caps_struct) → T.record → Option Nat
  | .MIDIINCAPSA, _ => none
  | .MIDIINCAPSW, _ => none
  | .MIDIOUTCAPSA, s => some s.wChannelMask
  | .MIDIOUTCAPSW, s => some s.wChannelMask

/-- The array `szPname` of a native record of any shape. -/
def dev_caps_struct.szPname : (T : dev_caps_struct) → T.record → List Nat
  | .MIDIINCAPSA, s => s.szPname
  | .MIDIINCAPSW, s => s.szPname
  | .MIDIOUTCAPSA, s => s.szPname
  | .MIDIOUTCAPSW, s => s.szPname

/-- Whether the name of a native record stays inside its array: `szPname` has its
`MAXPNAMELEN` units, nothing stored past them, and holds a null. -/
def dev_caps_struct.name_in_bounds (T : dev_caps_struct) (s : T.record) : Bool :=
  decide ((T.szPname s).length = MAXPNAMELEN) && decide (0 ∈ T.szPname s)

/-- The rule with its five output-only replacement values removed (used to state direction
gating). -/
def replace_rule.without_output_replacements (r : replace_rule) : replace_rule :=
  { r with
    maybe_replace_technology := none
    maybe_replace_voices := none
    maybe_replace_notes := none
    maybe_replace_channel_mask := none
    maybe_replace_support := none }

/-- Whether the rule carries no capability replacement at all, so that at most its
interface-name override is set. -/
def replace_rule.no_capability_replacement (r : replace_rule) : Bool :=
  r.maybe_replace_name.isNone && r.maybe_replace_man_id.isNone &&
  r.maybe_replace_prod_id.isNone && r.maybe_replace_driver_version.isNone &&
  r.maybe_replace_technology.isNone && r.maybe_replace_voices.isNone &&
  r.maybe_replace_notes.isNone && r.maybe_replace_channel_mask.isNone &&
  r.maybe_replace_support.isNone

/-- Whether a native input record is well formed: every numeric field is within its machine
type and the name has its null inside the array. -/
def MIDIINCAPS.well_formed (s : MIDIINCAPS) : Bool :=
  decide (s.wMid < 2 ^ 16) && decide (s.wPid < 2 ^ 16) &&
  decide (s.vDriverVersion < 2 ^ 32) && decide (0 ∈ s.szPname.take MAXPNAMELEN)

/-- Whether a native output record is well formed: every numeric field is within its machine
type and the name has its null inside the array. -/
def MIDIOUTCAPS.well_formed (s : MIDIOUTCAPS) : Bool :=
  decide (s.wMid < 2 ^ 16) && decide (s.wPid < 2 ^ 16) &&
  decide (s.vDriverVersion < 2 ^ 32) && decide (0 ∈ s.szPname.take MAXPNAMELEN) &&
  decide (s.wTechnology < 2 ^ 16) && decide (s.wVoices < 2 ^ 16) &&
  decide (s.wNotes < 2 ^ 16) && decide (s.wChannelMask < 2 ^ 16) &&
  decide (s.dwSupport < 2 ^ 32)

/-! ## The stock entry points -/

/-- Memory of wide characters reached through a caller pointer: the code unit at each index
from the pointer on. -/
abbrev wchar_mem := Nat → Nat

/-- The stock WinMM entry points the wrapper forwards to (`WinMM.h`, not part of the source
file), each as the return code and the contents of its output argument, and the
indeterminate initial contents of the locals the wrapper hands to them uninitialised. -/
structure WinMM where
  MMmidiOutGetDevCapsA : Nat → MIDIOUTCAPS → Nat → Nat × MIDIOUTCAPS
  MMmidiOutGetDevCapsW : Nat → MIDIOUTCAPS → Nat → Nat × MIDIOUTCAPS
  MMmidiInGetDevCapsA : Nat → MIDIINCAPS → Nat → Nat × MIDIINCAPS
  MMmidiInGetDevCapsW : Nat → MIDIINCAPS → Nat → Nat × MIDIINCAPS
  /-- The call `MMmidiInMessage(hm, DRV_QUERYDEVICEINTERFACESIZE, &sz, 0)`. -/
  MMmidiInMessage_SIZE : Nat → Nat → Nat × Nat
  /-- The call `MMmidiOutMessage(hm, DRV_QUERYDEVICEINTERFACESIZE, &sz, 0)`. -/
  MMmidiOutMessage_SIZE : Nat → Nat → Nat × Nat
  /-- The call `MMmidiInMessage(hm, DRV_QUERYDEVICEINTERFACE, dw1, dw2)`. -/
  MMmidiInMessage_DATA : Nat → wchar_mem → Nat → Nat × wchar_mem
  /-- The call `MMmidiOutMessage(hm, DRV_QUERYDEVICEINTERFACE, dw1, dw2)`. -/
  MMmidiOutMessage_DATA : Nat → wchar_mem → Nat → Nat × wchar_mem
  /-- Initial contents of the local `MIDIINCAPSW pmoc`. -/
  uninit_MIDIINCAPSW : MIDIINCAPS
  /-- Initial contents of the local `MIDIOUTCAPSW pmoc`. -/
  uninit_MIDIOUTCAPSW : MIDIOUTCAPS
  /-- Initial contents of the local `ULONG sz`. -/
  uninit_sz : Nat

/-- Size in bytes of the wide native records, passed as `sizeof(pmoc)`. -/
def sizeof_MIDIINCAPSW : Nat := 2 + 2 + 4 + 2 * MAXPNAMELEN + 4

/-- Size in bytes of `MIDIOUTCAPSW`. -/
def sizeof_MIDIOUTCAPSW : Nat := 2 + 2 + 4 + 2 * MAXPNAMELEN + 2 + 2 + 2 + 2 + 4

/-! ## Capability query interception -/

/-- The rule loop of the four capability overrides:
`for (auto const& rule : g_replace_rules) { rule.apply_in_place_c(*pmoc); }`. -/
def apply_rules_c (loc : Locale) (T : dev_caps_struct) (g_replace_rules : List replace_rule)
    (pmoc : T.record) : T.record :=
  g_replace_rules.foldl (fun pmoc rule => (rule.apply_in_place_c loc T pmoc).2) pmoc

/-- Whether the name stays inside `szPname` all through the rule loop: in the record the loop
starts from and in the record each rule leaves. -/
def run_in_bounds (loc : Locale) (T : dev_caps_struct) :
    List replace_rule → T.record → Bool
  | [], pmoc => T.name_in_bounds pmoc
  | rule :: rest, pmoc =>
    T.name_in_bounds pmoc && run_in_bounds loc T rest (rule.apply_in_place_c loc T pmoc).2

/-- Source function `OVERRIDE_midiOutGetDevCapsA`: return code and caller buffer. -/
def OVERRIDE_midiOutGetDevCapsA (w : WinMM) (loc : Locale)
    (g_replace_rules : List replace_rule) (deviceId : Nat) (pmoc : MIDIOUTCAPS)
    (cpmoc : Nat) : Nat × MIDIOUTCAPS :=
  let (rval, pmoc) := w.MMmidiOutGetDevCapsA deviceId pmoc cpmoc
  let pmoc := apply_rules_c loc .MIDIOUTCAPSA g_replace_rules pmoc
  (rval, pmoc)

/-- Source function `OVERRIDE_midiOutGetDevCapsW`: return code and caller buffer. -/
def OVERRIDE_midiOutGetDevCapsW (w : WinMM) (loc : Locale)
    (g_replace_rules : List replace_rule) (deviceId : Nat) (pmoc : MIDIOUTCAPS)
    (cpmoc : Nat) : Nat × MIDIOUTCAPS :=
  let (rval, pmoc) := w.MMmidiOutGetDevCapsW deviceId pmoc cpmoc
  let pmoc := apply_rules_c loc .MIDIOUTCAPSW g_replace_rules pmoc
  (rval, pmoc)

/-- Source function `OVERRIDE_midiInGetDevCapsA`: return code and caller buffer. -/
def OVERRIDE_midiInGetDevCapsA (w : WinMM) (loc : Locale)
    (g_replace_rules : List replace_rule) (deviceId : Nat) (pmoc : MIDIINCAPS)
    (cpmoc : Nat) : Nat × MIDIINCAPS :=
  let (rval, pmoc) := w.MMmidiInGetDevCapsA deviceId pmoc cpmoc
  let pmoc := apply_rules_c loc .MIDIINCAPSA g_replace_rules pmoc
  (rval, pmoc)

/-- Source function `OVERRIDE_midiInGetDevCapsW`: return code and caller buffer. -/
def OVERRIDE_midiInGetDevCapsW (w : WinMM) (loc : Locale)
    (g_replace_rules : List replace_rule) (deviceId : Nat) (pmoc : MIDIINCAPS)
    (cpmoc : Nat) : Nat × MIDIINCAPS :=
  let (rval, pmoc) := w.MMmidiInGetDevCapsW deviceId pmoc cpmoc
  let pmoc := apply_rules_c loc .MIDIINCAPSW g_replace_rules pmoc
  (rval, pmoc)

/-! ## Interface-name override -/

/-- The rule loop of `get_maybe_interface_name_override`, which leaves at the first rule that
matches. -/
def interface_name_loop (ours : midi_dev_caps) :
    List replace_rule → Option wstring → Option wstring
  | [], rval => rval
  | rule :: rest, rval =>
    if rule.is_match ours then rule.maybe_replace_interface_name
    else interface_name_loop ours rest rval

/-- The record `ours` of `get_maybe_interface_name_override`: the normalised result of the
stock wide capability query for the device, whose return code is not looked at. -/
def queried_dev_caps (w : WinMM) (loc : Locale) (devDirection : Direction) (deviceId : Nat) :
    midi_dev_caps :=
  if devDirection = Direction.Input then
    to_our_dev_caps loc .MIDIINCAPSW
      (w.MMmidiInGetDevCapsW deviceId w.uninit_MIDIINCAPSW sizeof_MIDIINCAPSW).2
  else
    to_our_dev_caps loc .MIDIOUTCAPSW
      (w.MMmidiOutGetDevCapsW deviceId w.uninit_MIDIOUTCAPSW sizeof_MIDIOUTCAPSW).2

/-- The native result `handle_QUERYDEVICEINTERFACESIZE` starts from: return code and size. -/
def native_QUERYDEVICEINTERFACESIZE (w : WinMM) (devDirection : Direction) (hm : Nat) :
    Nat × Nat :=
  if devDirection = Direction.Input then w.MMmidiInMessage_SIZE hm w.uninit_sz
  else w.MMmidiOutMessage_SIZE hm w.uninit_sz

/-- The native result `handle_QUERYDEVICEINTERFACE` starts from: return code and memory. -/
def native_QUERYDEVICEINTERFACE (w : WinMM) (devDirection : Direction) (hm : Nat)
    (dw1 : wchar_mem) (dw2 : Nat) : Nat × wchar_mem :=
  if devDirection = Direction.Input then w.MMmidiInMessage_DATA hm dw1 dw2
  else w.MMmidiOutMessage_DATA hm dw1 dw2

/-- Source function `get_maybe_interface_name_override`. -/
def get_maybe_interface_name_override (w : WinMM) (loc : Locale)
    (g_replace_rules : List replace_rule) (devDirection : Direction) (deviceId : Nat) :
    Option wstring :=
  let rval : Option wstring := none
  if devDirection = Direction.Input then
    let pmoc := (w.MMmidiInGetDevCapsW deviceId w.uninit_MIDIINCAPSW sizeof_MIDIINCAPSW).2
    let ours := to_our_dev_caps loc .MIDIINCAPSW pmoc
    interface_name_loop ours g_replace_rules rval
  else
    let pmoc := (w.MMmidiOutGetDevCapsW deviceId w.uninit_MIDIOUTCAPSW sizeof_MIDIOUTCAPSW).2
    let ours := to_our_dev_caps loc .MIDIOUTCAPSW pmoc
    interface_name_loop ours g_replace_rules rval

/-- Source function `handle_QUERYDEVICEINTERFACESIZE`: return code and the `ULONG` stored
through `dw1`. The size passes through `int new_sz` into the `ULONG`. -/
def handle_QUERYDEVICEINTERFACESIZE (w : WinMM) (loc : Locale)
    (g_replace_rules : List replace_rule) (devDirection : Direction) (hm : Nat) :
    Nat × Nat :=
  let (rval, sz) := native_QUERYDEVICEINTERFACESIZE w devDirection hm
  let maybe_substitute := get_maybe_interface_name_override w loc g_replace_rules devDirection hm
  match maybe_substitute with
  | some substitute =>
    let new_sz := sizeof_wchar_t * (substitute.length + 1)
    (MMSYSERR_NOERROR, to_DWORD new_sz)
  | none => (rval, sz)

/-- Library function `wcsncpy(dst, src, n)`: exactly `n` units are stored, the text of `src`
first and nulls after it. -/
def wcsncpy (dst : wchar_mem) (src : List Nat) (n : Nat) : wchar_mem :=
  fun i => if i < n then (c_str src).getD i 0 else dst i

/-- The index `dw2 / sizeof(wchar_t) - 1`, computed in `DWORD_PTR`: for a `dw2` below
`sizeof(wchar_t)` the subtraction wraps around to `2 ^ 64 - 1`, an index outside every
capacity (the store lands before the start of the buffer). -/
def terminator_index (dw2 : Nat) : Nat :=
  (dw2 / sizeof_wchar_t + 2 ^ SIZE_BITS - 1) % 2 ^ SIZE_BITS

/-- Source function `handle_QUERYDEVICEINTERFACE`: return code and the memory at `dw1`. -/
def handle_QUERYDEVICEINTERFACE (w : WinMM) (loc : Locale)
    (g_replace_rules : List replace_rule) (devDirection : Direction) (hm : Nat)
    (dw1 : wchar_mem) (dw2 : Nat) : Nat × wchar_mem :=
  let (rval, dw1) := native_QUERYDEVICEINTERFACE w devDirection hm dw1 dw2
  let maybe_substitute := get_maybe_interface_name_override w loc g_replace_rules devDirection hm
  match maybe_substitute with
  | some substitute =>
    let dw1 := wcsncpy dw1 substitute (dw2 / sizeof_wchar_t)
    let dw1 := Function.update dw1 (terminator_index dw2) 0
    (MMSYSERR_NOERROR, dw1)
  | none => (rval, dw1)

/-! ## Loading the rules -/

/-- One key of a configured rule record as `load_config` observes it through the JSON
library (not part of the source file): `rule.contains(key)` is false, or
`rule[key].get<T>()` throws, or it returns a value. -/
inductive json_member (α : Type) where
  | absent
  | mistyped
  | value (v : α)
  deriving DecidableEq, Repr

/-- An element of `data["rules"]`, by the keys `load_config` reads. -/
structure json_rule where
  match_name : json_member cstring := .absent
  match_man_id : json_member Nat := .absent
  match_prod_id : json_member Nat := .absent
  match_driver_version : json_member Nat := .absent
  match_direction : json_member cstring := .absent
  replace_name : json_member cstring := .absent
  replace_man_id : json_member Nat := .absent
  replace_prod_id : json_member Nat := .absent
  replace_driver_version : json_member Nat := .absent
  replace_technology : json_member Nat := .absent
  replace_voices : json_member Nat := .absent
  replace_notes : json_member Nat := .absent
  replace_channel_mask : json_member Nat := .absent
  replace_support : json_member Nat := .absent
  replace_interface_name : json_member cstring := .absent
  deriving DecidableEq, Repr

/-- The statement `if (rule.contains(key)) { ... rule[key].get<T>() ... }`: nothing when the
key is absent, an exception when the value has the wrong type. -/
def json_member.get {α : Type} : json_member α → Except String (Option α)
  | .absent => .ok none
  | .mistyped => .error "type_error"
  | .value v => .ok (some v)

/-- The wide text `L"in"`. -/
def L_in : wstring := [105, 110]

/-- The wide text `L"out"`. -/
def L_out : wstring := [111, 117, 116]

/-- The statement of `load_config` for the key `match_name`: the pattern is converted and
compiled. The parameter `wregex_ctor` is the `std::wregex` constructor, which yields nothing
when it throws `std::regex_error`. -/
def load_match_name (loc : Locale) (wregex_ctor : wstring → Option wregex)
    (m : json_member cstring) : Except String (Option wregex) :=
  match m.get with
  | .error e => .error e
  | .ok none => .ok none
  | .ok (some s) =>
    match wregex_ctor (stringToWstring loc s) with
    | some re => .ok (some re)
    | none => .error "regex_error"

/-- The statement of `load_config` for the key `match_direction`. -/
def load_match_direction (loc : Locale) (m : json_member cstring) :
    Except String (Option Direction) :=
  match m.get with
  | .error e => .error e
  | .ok none => .ok none
  | .ok (some s) =>
    let text := stringToWstring loc s
    if text = L_in then .ok (some Direction.Input)
    else if text = L_out then .ok (some Direction.Output)
    else .error "Invalid value for match_direction (should be in or out)"

/-- The body of the `try` block in the rule loop of `load_config`: the rule built from one
record, or the exception that makes the loop skip the record. -/
def load_rule (loc : Locale) (wregex_ctor : wstring → Option wregex) (rule : json_rule) :
    Except String replace_rule := do
  let maybe_match_name ← load_match_name loc wregex_ctor rule.match_name
  let maybe_match_man_id ← rule.match_man_id.get
  let maybe_match_prod_id ← rule.match_prod_id.get
  let maybe_match_driver_version ← rule.match_driver_version.get
  let maybe_match_direction ← load_match_direction loc rule.match_direction
  let replace_name ← rule.replace_name.get
  let maybe_replace_man_id ← rule.replace_man_id.get
  let maybe_replace_prod_id ← rule.replace_prod_id.get
  let maybe_replace_driver_version ← rule.replace_driver_version.get
  let maybe_replace_technology ← rule.replace_technology.get
  let maybe_replace_voices ← rule.replace_voices.get
  let maybe_replace_notes ← rule.replace_notes.get
  let maybe_replace_channel_mask ← rule.replace_channel_mask.get
  let maybe_replace_support ← rule.replace_support.get
  let replace_interface_name ← rule.replace_interface_name.get
  let rval : replace_rule :=
    { maybe_match_direction := maybe_match_direction
      maybe_match_name := maybe_match_name
      maybe_match_man_id := maybe_match_man_id
      maybe_match_prod_id := maybe_match_prod_id
      maybe_match_driver_version := maybe_match_driver_version
      maybe_replace_name := replace_name.map (stringToWstring loc)
      maybe_replace_man_id := maybe_replace_man_id
      maybe_replace_prod_id := maybe_replace_prod_id
      maybe_replace_driver_version := maybe_replace_driver_version
      maybe_replace_technology := maybe_replace_technology
      maybe_replace_voices := maybe_replace_voices
      maybe_replace_notes := maybe_replace_notes
      maybe_replace_channel_mask := maybe_replace_channel_mask
      maybe_replace_support := maybe_replace_support
      maybe_replace_interface_name := replace_interface_name.map (stringToWstring loc) }
  if !rval.maybe_replace_name.isSome &&
      !rval.maybe_replace_driver_version.isSome &&
      !rval.maybe_replace_man_id.isSome &&
      !rval.maybe_replace_prod_id.isSome &&
      !rval.maybe_replace_technology.isSome &&
      !rval.maybe_replace_voices.isSome &&
      !rval.maybe_replace_notes.isSome &&
      !rval.maybe_replace_channel_mask.isSome &&
      !rval.maybe_replace_support.isSome &&
      !rval.maybe_replace_interface_name.isSome then
    throw "No replace items set for rule, would not affect anything."
  else
    pure rval

/-- The rule loop of `load_config`, `for (auto& rule : rules) { try { ... } catch ... }`:
the list `g_replace_rules` after the loop. A record whose body throws is skipped. -/
def load_config_rules (loc : Locale) (wregex_ctor : wstring → Option wregex)
    (rules : List json_rule) (g_replace_rules : List replace_rule) : List replace_rule :=
  rules.foldl (fun g rule =>
    match load_rule loc wregex_ctor rule with
    | .ok rval => g ++ [rval]
    | .error _ => g) g_replace_rules

/-- Whether the key is present: `rule.contains(key)`. -/
def json_member.contains {α : Type} : json_member α → Bool
  | .absent => false
  | _ => true

/-- The value of the key, if the key is present and its value has the right type. -/
def json_member.toOption {α : Type} : json_member α → Option α
  | .value v => some v
  | _ => none

/-- Whether reading the key throws. -/
def json_member.throws {α : Type} : json_member α → Bool
  | .mistyped => true
  | _ => false

/-- Whether the record specifies at least one of the ten replace keys. -/
def json_rule.has_replace_key (rule : json_rule) : Bool :=
  rule.replace_name.contains || rule.replace_man_id.contains ||
  rule.replace_prod_id.contains || rule.replace_driver_version.contains ||
  rule.replace_technology.contains || rule.replace_voices.contains ||
  rule.replace_notes.contains || rule.replace_channel_mask.contains ||
  rule.replace_support.contains || rule.replace_interface_name.contains

/-- Whether the rule has at least one of the ten replacement values. -/
def replace_rule.has_replace_value (r : replace_rule) : Bool :=
  r.maybe_replace_name.isSome || r.maybe_replace_man_id.isSome ||
  r.maybe_replace_prod_id.isSome || r.maybe_replace_driver_version.isSome ||
  r.maybe_replace_technology.isSome || r.maybe_replace_voices.isSome ||
  r.maybe_replace_notes.isSome || r.maybe_replace_channel_mask.isSome ||
  r.maybe_replace_support.isSome || r.maybe_replace_interface_name.isSome

/-- Whether a configured rule record is well formed apart from its replace keys being there
or not: no key holds a value of the wrong type, the name pattern compiles, and the direction
is "in" or "out". -/
def json_rule.well_formed (loc : Locale) (wregex_ctor : wstring → Option wregex)
    (rule : json_rule) : Bool :=
  !rule.match_name.throws && !rule.match_man_id.throws && !rule.match_prod_id.throws &&
  !rule.match_driver_version.throws && !rule.match_direction.throws &&
  !rule.replace_name.throws && !rule.replace_man_id.throws &&
  !rule.replace_prod_id.throws && !rule.replace_driver_version.throws &&
  !rule.replace_technology.throws && !rule.replace_voices.throws &&
  !rule.replace_notes.throws && !rule.replace_channel_mask.throws &&
  !rule.replace_support.throws && !rule.replace_interface_name.throws &&
  (match rule.match_name with
   | .value s => (wregex_ctor (stringToWstring loc s)).isSome
   | _ => true) &&
  (match rule.match_direction with
   | .value s =>
     decide (stringToWstring loc s = L_in) || decide (stringToWstring loc s = L_out)
   | _ => true)

/-! ## Example data -/

/-- A single-byte locale in which every code unit converts to itself. -/
def ex_loc : Locale := { mbstowcs := id, wcstombs := id, MB_CUR_MAX := 1 }

/-- A native output record: manufacturer 1, product 2, name "Synth". -/
def ex_out : MIDIOUTCAPS :=
  { wMid := 1, wPid := 2, vDriverVersion := 256,
    szPname := [83, 121, 110, 116, 104] ++ List.replicate 27 0,
    wTechnology := 7, wVoices := 16, wNotes := 32, wChannelMask := 65535, dwSupport := 1 }

/-- A native input record: manufacturer 1, product 3, name "Keys". -/
def ex_in : MIDIINCAPS :=
  { wMid := 1, wPid := 3, vDriverVersion := 256,
    szPname := [75, 101, 121, 115] ++ List.replicate 28 0, dwSupport := 0 }

/-- Stock entry points that succeed and report `ex_out` and `ex_in` for every device, an
interface size of 8 bytes and the interface text "abc". -/
def ex_w : WinMM :=
  { MMmidiOutGetDevCapsA := fun _ _ _ => (MMSYSERR_NOERROR, ex_out)
    MMmidiOutGetDevCapsW := fun _ _ _ => (MMSYSERR_NOERROR, ex_out)
    MMmidiInGetDevCapsA := fun _ _ _ => (MMSYSERR_NOERROR, ex_in)
    MMmidiInGetDevCapsW := fun _ _ _ => (MMSYSERR_NOERROR, ex_in)
    MMmidiInMessage_SIZE := fun _ _ => (MMSYSERR_NOERROR, 8)
    MMmidiOutMessage_SIZE := fun _ _ => (MMSYSERR_NOERROR, 8)
    MMmidiInMessage_DATA := fun _ dw1 dw2 =>
      (MMSYSERR_NOERROR, wcsncpy dw1 [97, 98, 99] (dw2 / sizeof_wchar_t))
    MMmidiOutMessage_DATA := fun _ dw1 dw2 =>
      (MMSYSERR_NOERROR, wcsncpy dw1 [97, 98, 99] (dw2 / sizeof_wchar_t))
    uninit_MIDIINCAPSW := ex_in
    uninit_MIDIOUTCAPSW := ex_out
    uninit_sz := 0 }

/-- A rule for manufacturer 1 that sets the manufacturer to 2. -/
def ex_man_1_to_2 : replace_rule := { maybe_match_man_id := some 1, maybe_replace_man_id := some 2 }

/-- A rule for manufacturer 1 that sets the manufacturer to 3. -/
def ex_man_1_to_3 : replace_rule := { maybe_match_man_id := some 1, maybe_replace_man_id := some 3 }

/-- A rule for every record that sets the manufacturer to 7. -/
def ex_man_to_7 : replace_rule := { maybe_replace_man_id := some 7 }

/-- A rule for every record that sets the manufacturer to 9. -/
def ex_man_to_9 : replace_rule := { maybe_replace_man_id := some 9 }

/-- A rule for every record that sets the interface name to "X". -/
def ex_iface_X : replace_rule := { maybe_replace_interface_name := some [88] }

/-- Caller memory that holds the letter "A" in every code unit. -/
def ex_mem : wchar_mem := fun _ => 65

/-- The wide text "Virtual MIDI In". -/
def L_Virtual_MIDI_In : wstring :=
  [86, 105, 114, 116, 117, 97, 108, 32, 77, 73, 68, 73, 32, 73, 110]

/-- A rule for every record that sets the interface name to "Virtual MIDI In". -/
def ex_iface_virtual : replace_rule :=
  { maybe_replace_interface_name := some L_Virtual_MIDI_In }

/-- Stock entry points that fail with code 2 (`MMSYSERR_BADDEVICEID`) and leave the output
argument as it was. -/
def ex_w_fail : WinMM :=
  { MMmidiOutGetDevCapsA := fun _ pmoc _ => (2, pmoc)
    MMmidiOutGetDevCapsW := fun _ pmoc _ => (2, pmoc)
    MMmidiInGetDevCapsA := fun _ pmoc _ => (2, pmoc)
    MMmidiInGetDevCapsW := fun _ pmoc _ => (2, pmoc)
    MMmidiInMessage_SIZE := fun _ sz => (2, sz)
    MMmidiOutMessage_SIZE := fun _ sz => (2, sz)
    MMmidiInMessage_DATA := fun _ dw1 _ => (2, dw1)
    MMmidiOutMessage_DATA := fun _ dw1 _ => (2, dw1)
    uninit_MIDIINCAPSW := ex_in
    uninit_MIDIOUTCAPSW := ex_out
    uninit_sz := 0 }

/-- A rule for product 9 that sets the manufacturer to 2. -/
def ex_prod_9_man_2 : replace_rule :=
  { maybe_match_prod_id := some 9, maybe_replace_man_id := some 2 }

/-- A rule for every record that sets the technology to 5. -/
def ex_tech_to_5 : replace_rule := { maybe_replace_technology := some 5 }

/-- A `std::wregex` constructor that accepts every pattern and yields a regex that matches
every text. -/
def ex_wregex_ctor : wstring → Option wregex := fun _ => some { regex_match := fun _ => true }

/-- Three configured rule records: one that replaces the name, one without any replace key,
and one for the direction "in" that replaces the interface name. -/
def ex_json_rules : List json_rule :=
  [ { match_man_id := .value 1, replace_name := .value [83] },
    { match_man_id := .value 1 },
    { match_direction := .value [105, 110], replace_interface_name := .value [88] } ]

/-- A compiled pattern that `std::regex_match` accepts for the text "Synth" only. -/
def ex_re_Synth : wregex := { regex_match := fun s => decide (s = [83, 121, 110, 116, 104]) }

/-- A rule for the name pattern "Synth" that sets the manufacturer to 2. -/
def ex_name_Synth : replace_rule :=
  { maybe_match_name := some ex_re_Synth, maybe_replace_man_id := some 2 }

/-- A rule for manufacturer 1 and the name pattern "Synth" that sets the manufacturer to 2. -/
def ex_man_1_name_Synth : replace_rule :=
  { maybe_match_man_id := some 1, maybe_match_name := some ex_re_Synth,
    maybe_replace_man_id := some 2 }

/-- A canonical output record named "Synth 2", which has "Synth" as a substring. -/
def ex_caps_Synth_2 : midi_dev_caps :=
  { direction := Direction.Output, man_id := 1, prod_id := 2, driver_version := 256,
    name := [83, 121, 110, 116, 104, 32, 50],
    technology := some 7, voices := some 16, notes := some 32, channel_mask := some 65535,
    support := some 1 }

/-- A rule for every record that sets the manufacturer to 65537, one more than a `WORD`
can hold. -/
def ex_man_to_65537 : replace_rule := { maybe_replace_man_id := some 65537 }

/-- A rule for every record that sets the name to forty letters "A", more than `szPname`
holds. -/
def ex_name_40 : replace_rule := { maybe_replace_name := some (List.replicate 40 65) }

/-! ## Lemmas on rule application -/

theorem apply_in_place_fst (r : replace_rule) (m : midi_dev_caps) :
    (r.apply_in_place m).1 = r.is_match m := by
  unfold replace_rule.apply_in_place
  by_cases h : r.is_match m = true <;> simp [h]

theorem apply_in_place_of_not_match (r : replace_rule) (m : midi_dev_caps)
    (h : r.is_match m = false) : r.apply_in_place m = (false, m) := by
  unfold replace_rule.apply_in_place
  simp [h]

theorem apply_in_place_of_match (r : replace_rule) (m : midi_dev_caps)
    (h : r.is_match m = true) :
    r.apply_in_place m = (true,
      { direction := m.direction
        man_id := r.maybe_replace_man_id.getD m.man_id
        prod_id := r.maybe_replace_prod_id.getD m.prod_id
        driver_version := r.maybe_replace_driver_version.getD m.driver_version
        name := r.maybe_replace_name.getD m.name
        technology := r.maybe_replace_technology.orElse (fun _ => m.technology)
        voices := r.maybe_replace_voices.orElse (fun _ => m.voices)
        notes := r.maybe_replace_notes.orElse (fun _ => m.notes)
        channel_mask := r.maybe_replace_channel_mask.orElse (fun _ => m.channel_mask)
        support := r.maybe_replace_support.orElse (fun _ => m.support) }) := by
  have e1 : ∀ (p : Option wstring) (m : midi_dev_caps),
      replace_step p (fun v m => { m with name := v }) m
        = { m with name := p.getD m.name } := by
    intro p m; cases p <;> rfl
  have e2 : ∀ (p : Option Nat) (m : midi_dev_caps),
      replace_step p (fun v m => { m with man_id := v }) m
        = { m with man_id := p.getD m.man_id } := by
    intro p m; cases p <;> rfl
  have e3 : ∀ (p : Option Nat) (m : midi_dev_caps),
      replace_step p (fun v m => { m with prod_id := v }) m
        = { m with prod_id := p.getD m.prod_id } := by
    intro p m; cases p <;> rfl
  have e4 : ∀ (p : Option Nat) (m : midi_dev_caps),
      replace_step p (fun v m => { m with driver_version := v }) m
        = { m with driver_version := p.getD m.driver_version } := by
    intro p m; cases p <;> rfl
  have e5 : ∀ (p : Option Nat) (m : midi_dev_caps),
      replace_step p (fun v m => { m with technology := some v }) m
        = { m with technology := p.orElse (fun _ => m.technology) } := by
    intro p m; cases p <;> rfl
  have e6 : ∀ (p : Option Nat) (m : midi_dev_caps),
      replace_step p (fun v m => { m with voices := some v }) m
        = { m with voices := p.orElse (fun _ => m.voices) } := by
    intro p m; cases p <;> rfl
  have e7 : ∀ (p : Option Nat) (m : midi_dev_caps),
      replace_step p (fun v m => { m with notes := some v }) m
        = { m with notes := p.orElse (fun _ => m.notes) } := by
    intro p m; cases p <;> rfl
  have e8 : ∀ (p : Option Nat) (m : midi_dev_caps),
      replace_step p (fun v m => { m with channel_mask := some v }) m
        = { m with channel_mask := p.orElse (fun _ => m.channel_mask) } := by
    intro p m; cases p <;> rfl
  have e9 : ∀ (p : Option Nat) (m : midi_dev_caps),
      replace_step p (fun v m => { m with support := some v }) m
        = { m with support := p.orElse (fun _ => m.support) } := by
    intro p m; cases p <;> rfl
  unfold replace_rule.apply_in_place
  simp only [h, if_true, e1, e2, e3, e4, e5, e6, e7, e8, e9]

theorem c_str_append_null (a rest : List Nat) : c_str (c_str a ++ 0 :: rest) = c_str a := by
  induction a with
  | nil => simp [c_str]
  | cons x xs ih =>
    by_cases hx : x = 0
    · subst hx; simp [c_str]
    · have e : c_str (x :: xs) = x :: c_str xs := by simp [c_str, hx]
      rw [e]
      have : c_str (x :: (c_str xs ++ 0 :: rest)) = x :: c_str (c_str xs ++ 0 :: rest) := by
        simp [c_str, hx]
      simpa [ih] using this

theorem c_str_of_no_null (n : List Nat) (h : ∀ u ∈ n, u ≠ 0) : c_str n = n := by
  unfold c_str
  rw [List.takeWhile_eq_self_iff]
  intro u hu
  simpa using h u hu

theorem c_str_wcscpy (dst src : List Nat) : c_str (wcscpy dst src) = c_str src := by
  unfold wcscpy
  simpa using c_str_append_null src (dst.drop ((c_str src).length + 1))

theorem orElse_some_getD (p : Option Nat) (x d : Nat) :
    (p.orElse fun _ => some x).getD d = p.getD x := by
  cases p <;> rfl

theorem apply_in_place_c_fst (loc : Locale) (r : replace_rule) (T : dev_caps_struct)
    (s : T.record) :
    (r.apply_in_place_c loc T s).1 = r.is_match (to_our_dev_caps loc T s) := by
  cases T <;>
    by_cases h : r.is_match (to_our_dev_caps loc _ s) = true <;>
    first
      | simp [replace_rule.apply_in_place_c, apply_in_place_of_match _ _ h, h]
      | simp [replace_rule.apply_in_place_c,
          apply_in_place_of_not_match _ _ (Bool.eq_false_iff.mpr h), h]

theorem apply_in_place_c_of_not_match (loc : Locale) (r : replace_rule) (T : dev_caps_struct)
    (s : T.record) (h : r.is_match (to_our_dev_caps loc T s) = false) :
    r.apply_in_place_c loc T s = (false, s) := by
  cases T <;> simp [replace_rule.apply_in_place_c, apply_in_place_of_not_match _ _ h]

theorem apply_in_place_c_MIDIINCAPSA (loc : Locale) (r : replace_rule) (s : MIDIINCAPS)
    (h : r.is_match (to_our_dev_caps loc .MIDIINCAPSA s) = true) :
    r.apply_in_place_c loc .MIDIINCAPSA s = (true,
      ({ wMid := to_WORD (r.maybe_replace_man_id.getD s.wMid)
         wPid := to_WORD (r.maybe_replace_prod_id.getD s.wPid)
         vDriverVersion := to_DWORD (r.maybe_replace_driver_version.getD s.vDriverVersion)
         szPname := wcscpy s.szPname (wstringToString loc
           (r.maybe_replace_name.getD (stringToWstring loc (c_str s.szPname))))
         dwSupport := s.dwSupport } : MIDIINCAPS)) := by
  simp [replace_rule.apply_in_place_c, apply_in_place_of_match _ _ h]
  simp [to_our_dev_caps, chars_to_str, write_szPname, dev_caps_char_type]

theorem apply_in_place_c_MIDIINCAPSW (loc : Locale) (r : replace_rule) (s : MIDIINCAPS)
    (h : r.is_match (to_our_dev_caps loc .MIDIINCAPSW s) = true) :
    r.apply_in_place_c loc .MIDIINCAPSW s = (true,
      ({ wMid := to_WORD (r.maybe_replace_man_id.getD s.wMid)
         wPid := to_WORD (r.maybe_replace_prod_id.getD s.wPid)
         vDriverVersion := to_DWORD (r.maybe_replace_driver_version.getD s.vDriverVersion)
         szPname := wcscpy s.szPname (r.maybe_replace_name.getD (c_str s.szPname))
         dwSupport := s.dwSupport } : MIDIINCAPS)) := by
  simp [replace_rule.apply_in_place_c, apply_in_place_of_match _ _ h]
  simp [to_our_dev_caps, chars_to_str, write_szPname, dev_caps_char_type]

theorem apply_in_place_c_MIDIOUTCAPSA (loc : Locale) (r : replace_rule) (s : MIDIOUTCAPS)
    (h : r.is_match (to_our_dev_caps loc .MIDIOUTCAPSA s) = true) :
    r.apply_in_place_c loc .MIDIOUTCAPSA s = (true,
      ({ wMid := to_WORD (r.maybe_replace_man_id.getD s.wMid)
         wPid := to_WORD (r.maybe_replace_prod_id.getD s.wPid)
         vDriverVersion := to_DWORD (r.maybe_replace_driver_version.getD s.vDriverVersion)
         szPname := wcscpy s.szPname (wstringToString loc
           (r.maybe_replace_name.getD (stringToWstring loc (c_str s.szPname))))
         wTechnology := to_WORD (r.maybe_replace_technology.getD s.wTechnology)
         wVoices := to_WORD (r.maybe_replace_voices.getD s.wVoices)
         wNotes := to_WORD (r.maybe_replace_notes.getD s.wNotes)
         wChannelMask := to_WORD (r.maybe_replace_channel_mask.getD s.wChannelMask)
         dwSupport := to_DWORD (r.maybe_replace_support.getD s.dwSupport) } : MIDIOUTCAPS)) := by
  simp [replace_rule.apply_in_place_c, apply_in_place_of_match _ _ h]
  simp [to_our_dev_caps, chars_to_str, write_szPname, dev_caps_char_type]
  simp only [orElse_some_getD]

theorem apply_in_place_c_MIDIOUTCAPSW (loc : Locale) (r : replace_rule) (s : MIDIOUTCAPS)
    (h : r.is_match (to_our_dev_caps loc .MIDIOUTCAPSW s) = true) :
    r.apply_in_place_c loc .MIDIOUTCAPSW s = (true,
      ({ wMid := to_WORD (r.maybe_replace_man_id.getD s.wMid)
         wPid := to_WORD (r.maybe_replace_prod_id.getD s.wPid)
         vDriverVersion := to_DWORD (r.maybe_replace_driver_version.getD s.vDriverVersion)
         szPname := wcscpy s.szPname (r.maybe_replace_name.getD (c_str s.szPname))
         wTechnology := to_WORD (r.maybe_replace_technology.getD s.wTechnology)
         wVoices := to_WORD (r.maybe_replace_voices.getD s.wVoices)
         wNotes := to_WORD (r.maybe_replace_notes.getD s.wNotes)
         wChannelMask := to_WORD (r.maybe_replace_channel_mask.getD s.wChannelMask)
         dwSupport := to_DWORD (r.maybe_replace_support.getD s.dwSupport) } : MIDIOUTCAPS)) := by
  simp [replace_rule.apply_in_place_c, apply_in_place_of_match _ _ h]
  simp [to_our_dev_caps, chars_to_str, write_szPname, dev_caps_char_type]
  simp only [orElse_some_getD]

/-- On the output shapes the five output fields of the canonical record are set after
`apply_in_place`, so the `value()` calls of `apply_in_place_c` do not throw. -/
theorem apply_in_place_output_fields (loc : Locale) (r : replace_rule)
    (T : dev_caps_struct) (s : T.record) (hT : CapsDirection T = Direction.Output) :
    (r.apply_in_place (to_our_dev_caps loc T s)).2.technology.isSome = true ∧
    (r.apply_in_place (to_our_dev_caps loc T s)).2.voices.isSome = true ∧
    (r.apply_in_place (to_our_dev_caps loc T s)).2.notes.isSome = true ∧
    (r.apply_in_place (to_our_dev_caps loc T s)).2.channel_mask.isSome = true ∧
    (r.apply_in_place (to_our_dev_caps loc T s)).2.support.isSome = true := by
  have key : ∀ (p : Option Nat) (x : Nat), (p.orElse fun _ => some x).isSome = true := by
    intro p x
    cases p <;> rfl
  cases T
  · simp [CapsDirection] at hT
  · simp [CapsDirection] at hT
  · by_cases h : r.is_match (to_our_dev_caps loc .MIDIOUTCAPSA s) = true
    · rw [apply_in_place_of_match _ _ h]
      simp only [to_our_dev_caps, key, and_self]
    · rw [apply_in_place_of_not_match _ _ (Bool.eq_false_iff.mpr h)]
      simp [to_our_dev_caps]
  · by_cases h : r.is_match (to_our_dev_caps loc .MIDIOUTCAPSW s) = true
    · rw [apply_in_place_of_match _ _ h]
      simp only [to_our_dev_caps, key, and_self]
    · rw [apply_in_place_of_not_match _ _ (Bool.eq_false_iff.mpr h)]
      simp [to_our_dev_caps]

theorem OVERRIDE_midiOutGetDevCapsA_eq (w : WinMM) (loc : Locale) (g : List replace_rule)
    (deviceId : Nat) (pmoc : MIDIOUTCAPS) (cpmoc : Nat) :
    OVERRIDE_midiOutGetDevCapsA w loc g deviceId pmoc cpmoc
      = ((w.MMmidiOutGetDevCapsA deviceId pmoc cpmoc).1,
         apply_rules_c loc .MIDIOUTCAPSA g (w.MMmidiOutGetDevCapsA deviceId pmoc cpmoc).2) :=
  rfl

theorem OVERRIDE_midiOutGetDevCapsW_eq (w : WinMM) (loc : Locale) (g : List replace_rule)
    (deviceId : Nat) (pmoc : MIDIOUTCAPS) (cpmoc : Nat) :
    OVERRIDE_midiOutGetDevCapsW w loc g deviceId pmoc cpmoc
      = ((w.MMmidiOutGetDevCapsW deviceId pmoc cpmoc).1,
         apply_rules_c loc .MIDIOUTCAPSW g (w.MMmidiOutGetDevCapsW deviceId pmoc cpmoc).2) :=
  rfl

theorem OVERRIDE_midiInGetDevCapsA_eq (w : WinMM) (loc : Locale) (g : List replace_rule)
    (deviceId : Nat) (pmoc : MIDIINCAPS) (cpmoc : Nat) :
    OVERRIDE_midiInGetDevCapsA w loc g deviceId pmoc cpmoc
      = ((w.MMmidiInGetDevCapsA deviceId pmoc cpmoc).1,
         apply_rules_c loc .MIDIINCAPSA g (w.MMmidiInGetDevCapsA deviceId pmoc cpmoc).2) :=
  rfl

theorem OVERRIDE_midiInGetDevCapsW_eq (w : WinMM) (loc : Locale) (g : List replace_rule)
    (deviceId : Nat) (pmoc : MIDIINCAPS) (cpmoc : Nat) :
    OVERRIDE_midiInGetDevCapsW w loc g deviceId pmoc cpmoc
      = ((w.MMmidiInGetDevCapsW deviceId pmoc cpmoc).1,
         apply_rules_c loc .MIDIINCAPSW g (w.MMmidiInGetDevCapsW deviceId pmoc cpmoc).2) :=
  rfl

/-- Normalised fields of a native record after a rule that matches it, for every shape. -/
theorem to_our_dev_caps_apply_in_place_c (loc : Locale) (r : replace_rule)
    (T : dev_caps_struct) (s : T.record)
    (h : r.is_match (to_our_dev_caps loc T s) = true) :
    let out := to_our_dev_caps loc T (r.apply_in_place_c loc T s).2
    out.man_id = to_WORD (r.maybe_replace_man_id.getD (to_our_dev_caps loc T s).man_id) ∧
    out.prod_id = to_WORD (r.maybe_replace_prod_id.getD (to_our_dev_caps loc T s).prod_id) ∧
    out.driver_version
      = to_DWORD (r.maybe_replace_driver_version.getD
          (to_our_dev_caps loc T s).driver_version) ∧
    (dev_caps_char_type T = .WCHAR →
      out.name = c_str (r.maybe_replace_name.getD (to_our_dev_caps loc T s).name)) ∧
    (CapsDirection T = .Output →
      out.technology = ((r.maybe_replace_technology.orElse
          fun _ => (to_our_dev_caps loc T s).technology).map to_WORD) ∧
      out.voices = ((r.maybe_replace_voices.orElse
          fun _ => (to_our_dev_caps loc T s).voices).map to_WORD) ∧
      out.notes = ((r.maybe_replace_notes.orElse
          fun _ => (to_our_dev_caps loc T s).notes).map to_WORD) ∧
      out.channel_mask = ((r.maybe_replace_channel_mask.orElse
          fun _ => (to_our_dev_caps loc T s).channel_mask).map to_WORD) ∧
      out.support = ((r.maybe_replace_support.orElse
          fun _ => (to_our_dev_caps loc T s).support).map to_DWORD)) := by
  cases T
  · rw [apply_in_place_c_MIDIINCAPSA loc r s h]
    simp [to_our_dev_caps, dev_caps_char_type, CapsDirection]
  · rw [apply_in_place_c_MIDIINCAPSW loc r s h]
    simp [to_our_dev_caps, dev_caps_char_type, CapsDirection, chars_to_str, c_str_wcscpy]
  · rw [apply_in_place_c_MIDIOUTCAPSA loc r s h]
    simp [to_our_dev_caps, dev_caps_char_type, CapsDirection]
    refine ⟨?_, ?_, ?_, ?_, ?_⟩
    · cases r.maybe_replace_technology <;> rfl
    · cases r.maybe_replace_voices <;> rfl
    · cases r.maybe_replace_notes <;> rfl
    · cases r.maybe_replace_channel_mask <;> rfl
    · cases r.maybe_replace_support <;> rfl
  · rw [apply_in_place_c_MIDIOUTCAPSW loc r s h]
    simp [to_our_dev_caps, dev_caps_char_type, CapsDirection, chars_to_str, c_str_wcscpy]
    refine ⟨?_, ?_, ?_, ?_, ?_⟩
    · cases r.maybe_replace_technology <;> rfl
    · cases r.maybe_replace_voices <;> rfl
    · cases r.maybe_replace_notes <;> rfl
    · cases r.maybe_replace_channel_mask <;> rfl
    · cases r.maybe_replace_support <;> rfl

/-! ## Lemmas on the interface-name override -/

theorem interface_name_loop_eq_find (ours : midi_dev_caps) (rules : List replace_rule) :
    interface_name_loop ours rules none
      = (rules.find? (fun r => r.is_match ours)).bind
          (fun r => r.maybe_replace_interface_name) := by
  induction rules with
  | nil => rfl
  | cons r rest ih =>
    by_cases h : r.is_match ours = true
    · simp [interface_name_loop, List.find?, h]
    · simp [interface_name_loop, List.find?, h, ih]

theorem get_maybe_interface_name_override_eq (w : WinMM) (loc : Locale)
    (rules : List replace_rule) (devDirection : Direction) (deviceId : Nat) :
    get_maybe_interface_name_override w loc rules devDirection deviceId
      = interface_name_loop (queried_dev_caps w loc devDirection deviceId) rules none := by
  unfold get_maybe_interface_name_override queried_dev_caps
  by_cases h : devDirection = Direction.Input <;> simp [h]

theorem c_str_eq_take (t : List Nat) : c_str t = t.take (c_str t).length := by
  unfold c_str
  exact List.prefix_iff_eq_take.mp (List.takeWhile_prefix _)

theorem c_str_length_le (t : List Nat) : (c_str t).length ≤ t.length := by
  unfold c_str
  exact (List.takeWhile_prefix _).length_le

theorem c_str_take (t : List Nat) (k : Nat) (h : k ≤ (c_str t).length) :
    (c_str t).take k = t.take k := by
  have e := c_str_eq_take t
  calc (c_str t).take k = (t.take (c_str t).length).take k := by rw [← e]
    _ = t.take k := by rw [List.take_take, Nat.min_eq_left h]

theorem map_range_getD (l : List Nat) (k : Nat) (h : k ≤ l.length) :
    (List.range k).map (fun i => l.getD i 0) = l.take k := by
  apply List.ext_getElem
  · simp [h]
  · intro i h1 h2
    simp at h1 h2
    simp [List.getD_eq_getElem?_getD, List.getElem?_eq_getElem (show i < l.length by omega)]

theorem terminator_index_of_le (dw2 : Nat) (h1 : sizeof_wchar_t ≤ dw2)
    (h2 : dw2 < 2 ^ SIZE_BITS) : terminator_index dw2 = dw2 / sizeof_wchar_t - 1 := by
  unfold terminator_index
  simp only [sizeof_wchar_t, SIZE_BITS] at *
  norm_num at h2 ⊢
  omega

theorem handle_QUERYDEVICEINTERFACESIZE_of_some (w : WinMM) (loc : Locale)
    (rules : List replace_rule) (devDirection : Direction) (hm : Nat) (t : wstring)
    (ht : get_maybe_interface_name_override w loc rules devDirection hm = some t) :
    handle_QUERYDEVICEINTERFACESIZE w loc rules devDirection hm
      = (MMSYSERR_NOERROR, to_DWORD (sizeof_wchar_t * (t.length + 1))) := by
  unfold handle_QUERYDEVICEINTERFACESIZE
  simp only [ht]

theorem handle_QUERYDEVICEINTERFACESIZE_of_none (w : WinMM) (loc : Locale)
    (rules : List replace_rule) (devDirection : Direction) (hm : Nat)
    (ht : get_maybe_interface_name_override w loc rules devDirection hm = none) :
    handle_QUERYDEVICEINTERFACESIZE w loc rules devDirection hm
      = native_QUERYDEVICEINTERFACESIZE w devDirection hm := by
  unfold handle_QUERYDEVICEINTERFACESIZE
  simp [ht]

theorem to_DWORD_size_of_fit (n : Nat) (h : (n + 1) * sizeof_wchar_t < 2 ^ 32) :
    to_DWORD (sizeof_wchar_t * (n + 1)) = (n + 1) * sizeof_wchar_t := by
  unfold to_DWORD
  rw [Nat.mul_comm]
  exact Nat.mod_eq_of_lt h

theorem handle_QUERYDEVICEINTERFACE_of_some (w : WinMM) (loc : Locale)
    (rules : List replace_rule) (devDirection : Direction) (hm : Nat) (dw1 : wchar_mem)
    (dw2 : Nat) (t : wstring)
    (ht : get_maybe_interface_name_override w loc rules devDirection hm = some t) :
    handle_QUERYDEVICEINTERFACE w loc rules devDirection hm dw1 dw2
      = (MMSYSERR_NOERROR,
         Function.update
           (wcsncpy (native_QUERYDEVICEINTERFACE w devDirection hm dw1 dw2).2 t
             (dw2 / sizeof_wchar_t))
           (terminator_index dw2) 0) := by
  unfold handle_QUERYDEVICEINTERFACE
  simp [ht]

theorem handle_QUERYDEVICEINTERFACE_of_none (w : WinMM) (loc : Locale)
    (rules : List replace_rule) (devDirection : Direction) (hm : Nat) (dw1 : wchar_mem)
    (dw2 : Nat)
    (ht : get_maybe_interface_name_override w loc rules devDirection hm = none) :
    handle_QUERYDEVICEINTERFACE w loc rules devDirection hm dw1 dw2
      = native_QUERYDEVICEINTERFACE w devDirection hm dw1 dw2 := by
  unfold handle_QUERYDEVICEINTERFACE
  simp [ht]

/-- Contents of the caller buffer after the data phase with an override text, for a
capacity of at least one code unit. -/
theorem data_query_contents (w : WinMM) (loc : Locale)
    (rules : List replace_rule) (devDirection : Direction) (hm : Nat) (dw1 : wchar_mem)
    (dw2 : Nat) (t : wstring)
    (ht : get_maybe_interface_name_override w loc rules devDirection hm = some t)
    (h1 : sizeof_wchar_t ≤ dw2) (h2 : dw2 < 2 ^ SIZE_BITS) (i : Nat) :
    (handle_QUERYDEVICEINTERFACE w loc rules devDirection hm dw1 dw2).2 i
      = if i < dw2 / sizeof_wchar_t - 1 then (c_str t).getD i 0
        else if i < dw2 / sizeof_wchar_t then 0
        else (native_QUERYDEVICEINTERFACE w devDirection hm dw1 dw2).2 i := by
  rw [handle_QUERYDEVICEINTERFACE_of_some w loc rules devDirection hm dw1 dw2 t ht,
    terminator_index_of_le dw2 h1 h2]
  have hn : 1 ≤ dw2 / sizeof_wchar_t := by
    simp only [sizeof_wchar_t] at *
    omega
  simp only [Function.update, wcsncpy]
  by_cases e : i = dw2 / sizeof_wchar_t - 1
  · have l : dw2 / sizeof_wchar_t - 1 < dw2 / sizeof_wchar_t := by omega
    subst e
    simp [l]
  · simp only [e, dite_false, eq_rec_constant]
    by_cases l : i < dw2 / sizeof_wchar_t
    · have l2 : i < dw2 / sizeof_wchar_t - 1 := by omega
      simp [l, l2]
    · have l2 : ¬ i < dw2 / sizeof_wchar_t - 1 := by omega
      simp [l, l2]

/-! ## Lemmas on the rule loop -/

theorem apply_rules_c_cons (loc : Locale) (T : dev_caps_struct) (r : replace_rule)
    (rest : List replace_rule) (s : T.record) :
    apply_rules_c loc T (r :: rest) s
      = apply_rules_c loc T rest (r.apply_in_place_c loc T s).2 := rfl

theorem apply_rules_c_of_no_match (loc : Locale) (T : dev_caps_struct)
    (rules : List replace_rule) (s : T.record)
    (h : ∀ r ∈ rules, r.is_match (to_our_dev_caps loc T s) = false) :
    apply_rules_c loc T rules s = s := by
  induction rules with
  | nil => rfl
  | cons r rest ih =>
    rw [apply_rules_c_cons, apply_in_place_c_of_not_match loc r T s (h r (by simp))]
    exact ih (fun r' hr' => h r' (by simp [hr']))

/-! ## Lemmas on direction gating and the round trip -/

theorem is_match_without_output_replacements (r : replace_rule) (m : midi_dev_caps) :
    r.without_output_replacements.is_match m = r.is_match m := rfl

theorem wcscpy_self (x : List Nat) (h : 0 ∈ x) : wcscpy x (c_str x) = x := by
  have key : ∀ y : List Nat, 0 ∈ y →
      c_str y ++ 0 :: y.drop ((c_str y).length + 1) = y := by
    intro y
    induction y with
    | nil => intro hy; simp at hy
    | cons a rest ih =>
      intro hy
      by_cases ha : a = 0
      · subst ha; simp [c_str]
      · have hr : 0 ∈ rest := by
          rcases List.mem_cons.mp hy with e | e
          · exact absurd e.symm ha
          · exact e
        have e : c_str (a :: rest) = a :: c_str rest := by simp [c_str, ha]
        rw [e]
        simpa using ih hr
  have idem : c_str (c_str x) = c_str x := by
    apply c_str_of_no_null
    intro u hu
    have := List.mem_takeWhile_imp hu
    simpa using this
  unfold wcscpy
  rw [idem]
  simpa using key x h

/-! ## Lemmas on rule loading -/

theorem json_member_get_of_not_throws {α : Type} (m : json_member α)
    (h : m.throws = false) : m.get = .ok m.toOption := by
  cases m <;> simp_all [json_member.get, json_member.throws, json_member.toOption]

theorem json_member_isSome_toOption {α : Type} (m : json_member α)
    (h : m.throws = false) : m.toOption.isSome = m.contains := by
  cases m <;> simp_all [json_member.contains, json_member.throws, json_member.toOption]

theorem json_member_isSome_map_toOption {α β : Type} (m : json_member α) (f : α → β)
    (h : m.throws = false) : (m.toOption.map f).isSome = m.contains := by
  cases m <;> simp_all [json_member.contains, json_member.throws, json_member.toOption]

theorem load_rule_ok_of_well_formed (loc : Locale) (wregex_ctor : wstring → Option wregex)
    (rule : json_rule) (hwf : rule.well_formed loc wregex_ctor = true)
    (hkey : rule.has_replace_key = true) :
    ∃ rval, load_rule loc wregex_ctor rule = .ok rval ∧ rval.has_replace_value = true := by
  simp only [json_rule.well_formed, Bool.and_eq_true, Bool.not_eq_true'] at hwf
  obtain ⟨⟨⟨⟨⟨⟨⟨⟨⟨⟨⟨⟨⟨⟨⟨⟨m1, m2⟩, m3⟩, m4⟩, m5⟩, p1⟩, p2⟩, p3⟩, p4⟩, p5⟩, p6⟩, p7⟩, p8⟩, p9⟩,
    p10⟩, hre⟩, hdir⟩ := hwf
  have hn : ∃ x, load_match_name loc wregex_ctor rule.match_name = .ok x := by
    unfold load_match_name
    cases hm : rule.match_name with
    | absent => exact ⟨none, rfl⟩
    | mistyped => simp [hm, json_member.throws] at m1
    | value s =>
      rw [hm] at hre
      simp only [Option.isSome_iff_exists] at hre
      obtain ⟨re, hre⟩ := hre
      exact ⟨some re, by simp [json_member.get, hre]⟩
  have hd : ∃ x, load_match_direction loc rule.match_direction = .ok x := by
    unfold load_match_direction
    cases hm : rule.match_direction with
    | absent => exact ⟨none, rfl⟩
    | mistyped => simp [hm, json_member.throws] at m5
    | value s =>
      rw [hm] at hdir
      simp only [Bool.or_eq_true, decide_eq_true_eq] at hdir
      by_cases h1 : stringToWstring loc s = L_in
      · exact ⟨some Direction.Input, by simp [json_member.get, h1]⟩
      · have h2 : stringToWstring loc s = L_out := by tauto
        have h3 : ¬ L_out = L_in := by decide
        exact ⟨some Direction.Output, by simp [json_member.get, h2, h3]⟩
  obtain ⟨xn, hn⟩ := hn
  obtain ⟨xd, hd⟩ := hd
  unfold load_rule
  rw [hn, hd, json_member_get_of_not_throws _ m2,
    json_member_get_of_not_throws _ m3, json_member_get_of_not_throws _ m4,
    json_member_get_of_not_throws _ p1,
    json_member_get_of_not_throws _ p2, json_member_get_of_not_throws _ p3,
    json_member_get_of_not_throws _ p4, json_member_get_of_not_throws _ p5,
    json_member_get_of_not_throws _ p6, json_member_get_of_not_throws _ p7,
    json_member_get_of_not_throws _ p8, json_member_get_of_not_throws _ p9,
    json_member_get_of_not_throws _ p10]
  simp only [bind, Except.bind, json_member_isSome_map_toOption _ _ p1,
    json_member_isSome_map_toOption _ _ p10,
    json_member_isSome_toOption _ p2, json_member_isSome_toOption _ p3,
    json_member_isSome_toOption _ p4, json_member_isSome_toOption _ p5,
    json_member_isSome_toOption _ p6, json_member_isSome_toOption _ p7,
    json_member_isSome_toOption _ p8, json_member_isSome_toOption _ p9,
    json_member_isSome_toOption _ p10]
  have hc : ¬ ((!rule.replace_name.contains && !rule.replace_driver_version.contains &&
      !rule.replace_man_id.contains && !rule.replace_prod_id.contains &&
      !rule.replace_technology.contains && !rule.replace_voices.contains &&
      !rule.replace_notes.contains && !rule.replace_channel_mask.contains &&
      !rule.replace_support.contains && !rule.replace_interface_name.contains) = true) := by
    intro hcond
    simp only [Bool.and_eq_true, Bool.not_eq_true'] at hcond
    simp only [json_rule.has_replace_key, Bool.or_eq_true] at hkey
    obtain ⟨⟨⟨⟨⟨⟨⟨⟨⟨c1, c2⟩, c3⟩, c4⟩, c5⟩, c6⟩, c7⟩, c8⟩, c9⟩, c10⟩ := hcond
    simp [c1, c2, c3, c4, c5, c6, c7, c8, c9, c10] at hkey
  rw [if_neg hc]
  refine ⟨_, rfl, ?_⟩
  simp only [replace_rule.has_replace_value, json_member_isSome_map_toOption _ _ p1,
    json_member_isSome_map_toOption _ _ p10, json_member_isSome_toOption _ p2,
    json_member_isSome_toOption _ p3, json_member_isSome_toOption _ p4,
    json_member_isSome_toOption _ p5, json_member_isSome_toOption _ p6,
    json_member_isSome_toOption _ p7, json_member_isSome_toOption _ p8,
    json_member_isSome_toOption _ p9]
  exact hkey

theorem load_rule_error_of_no_replace_key (loc : Locale)
    (wregex_ctor : wstring → Option wregex) (rule : json_rule)
    (hkey : rule.has_replace_key = false) :
    ∃ e, load_rule loc wregex_ctor rule = .error e := by
  simp only [json_rule.has_replace_key, Bool.or_eq_false_iff] at hkey
  obtain ⟨⟨⟨⟨⟨⟨⟨⟨⟨c1, c2⟩, c3⟩, c4⟩, c5⟩, c6⟩, c7⟩, c8⟩, c9⟩, c10⟩ := hkey
  have abs : ∀ {α : Type} (m : json_member α), m.contains = false → m = .absent := by
    intro α m hm
    cases m <;> simp_all [json_member.contains]
  unfold load_rule
  rw [abs _ c1, abs _ c2, abs _ c3, abs _ c4, abs _ c5, abs _ c6, abs _ c7, abs _ c8,
    abs _ c9, abs _ c10]
  cases h1 : load_match_name loc wregex_ctor rule.match_name with
  | error e => exact ⟨e, rfl⟩
  | ok x1 =>
  cases h2 : rule.match_man_id.get with
  | error e => exact ⟨e, rfl⟩
  | ok x2 =>
  cases h3 : rule.match_prod_id.get with
  | error e => exact ⟨e, rfl⟩
  | ok x3 =>
  cases h4 : rule.match_driver_version.get with
  | error e => exact ⟨e, rfl⟩
  | ok x4 =>
  cases h5 : load_match_direction loc rule.match_direction with
  | error e => exact ⟨e, rfl⟩
  | ok x5 => exact ⟨_, rfl⟩

theorem load_config_rules_cons (loc : Locale) (wregex_ctor : wstring → Option wregex)
    (rule : json_rule) (rest : List json_rule) (g : List replace_rule) :
    load_config_rules loc wregex_ctor (rule :: rest) g
      = load_config_rules loc wregex_ctor rest
          (match load_rule loc wregex_ctor rule with
           | .ok rval => g ++ [rval]
           | .error _ => g) := rfl

/-- The rules the loading loop appends for well-formed records: one per record with a
replace key, in order. -/
theorem load_config_rules_spec (loc : Locale) (wregex_ctor : wstring → Option wregex)
    (rules : List json_rule)
    (hwf : ∀ rule ∈ rules, rule.well_formed loc wregex_ctor = true) :
    ∀ g : List replace_rule, ∃ loaded : List replace_rule,
      load_config_rules loc wregex_ctor rules g = g ++ loaded ∧
      List.Forall₂ (fun rule rval => load_rule loc wregex_ctor rule = .ok rval)
        (rules.filter json_rule.has_replace_key) loaded ∧
      (∀ rval ∈ loaded, rval.has_replace_value = true) ∧
      loaded.length + rules.countP (fun rule => !rule.has_replace_key) = rules.length := by
  induction rules with
  | nil =>
    intro g
    exact ⟨[], by simp [load_config_rules], by simp, by simp, by simp⟩
  | cons rule rest ih =>
    intro g
    have hwf' : ∀ r ∈ rest, r.well_formed loc wregex_ctor = true :=
      fun r hr => hwf r (by simp [hr])
    by_cases hkey : rule.has_replace_key = true
    · obtain ⟨rval, hok, hval⟩ :=
        load_rule_ok_of_well_formed loc wregex_ctor rule (hwf rule (by simp)) hkey
      obtain ⟨loaded, h1, h2, h3, h4⟩ := ih hwf' (g ++ [rval])
      refine ⟨rval :: loaded, ?_, ?_, ?_, ?_⟩
      · rw [load_config_rules_cons, hok]
        simpa using h1
      · rw [List.filter_cons_of_pos hkey]
        exact List.Forall₂.cons hok h2
      · intro r hr
        rcases List.mem_cons.mp hr with e | e
        · exact e ▸ hval
        · exact h3 r e
      · simp only [List.countP_cons, hkey, List.length_cons]
        simp only [Bool.not_true, Bool.false_eq_true, if_false]
        omega
    · have hkey' : rule.has_replace_key = false := Bool.eq_false_iff.mpr hkey
      obtain ⟨e, herr⟩ := load_rule_error_of_no_replace_key loc wregex_ctor rule hkey'
      obtain ⟨loaded, h1, h2, h3, h4⟩ := ih hwf' g
      refine ⟨loaded, ?_, ?_, h3, ?_⟩
      · rw [load_config_rules_cons, herr]
        exact h1
      · rw [List.filter_cons_of_neg hkey]
        exact h2
      · simp only [List.countP_cons, hkey', List.length_cons]
        simp only [Bool.not_false, if_true]
        omega

/-! ## Lemmas on rule matching -/

theorem match_step_eq {α : Type} (rval : Bool) (p : Option α) (test : α → Bool) :
    match_step rval p test = (rval && p.all test) := by
  cases p <;> simp [match_step, Option.all]

theorem option_all_eq_true {α : Type} (p : Option α) (test : α → Bool) :
    p.all test = true ↔ ∀ x, p = some x → test x = true := by
  cases p <;> simp [Option.all]

/-- The result of `is_match` as the conjunction of its five guarded tests. -/
theorem is_match_eq (r : replace_rule) (m : midi_dev_caps) :
    r.is_match m
      = (r.maybe_match_direction.all (fun d => decide (d = m.direction)) &&
         r.maybe_match_name.all (fun re => re.regex_match m.name) &&
         r.maybe_match_man_id.all (fun v => decide (v = m.man_id)) &&
         r.maybe_match_prod_id.all (fun v => decide (v = m.prod_id)) &&
         r.maybe_match_driver_version.all (fun v => decide (v = m.driver_version))) := by
  unfold replace_rule.is_match
  simp only [match_step_eq, Bool.true_and]

theorem is_match_iff (r : replace_rule) (m : midi_dev_caps) :
    r.is_match m = true ↔
      (∀ d, r.maybe_match_direction = some d → d = m.direction) ∧
      (∀ re, r.maybe_match_name = some re → re.regex_match m.name = true) ∧
      (∀ v, r.maybe_match_man_id = some v → v = m.man_id) ∧
      (∀ v, r.maybe_match_prod_id = some v → v = m.prod_id) ∧
      (∀ v, r.maybe_match_driver_version = some v → v = m.driver_version) := by
  rw [is_match_eq]
  simp only [Bool.and_eq_true, option_all_eq_true, decide_eq_true_eq]
  tauto

/-! ## Lemmas on the name write-back -/

theorem wcscpy_length_of_fit (dst src : List Nat) (h : (c_str src).length < dst.length) :
    (wcscpy dst src).length = dst.length := by
  simp only [wcscpy, List.length_append, List.length_cons, List.length_nil, List.length_drop]
  omega

theorem wcscpy_length_of_overflow (dst src : List Nat) (h : dst.length ≤ (c_str src).length) :
    (wcscpy dst src).length = (c_str src).length + 1 := by
  simp only [wcscpy, List.length_append, List.length_cons, List.length_nil, List.length_drop]
  omega

/-! ## Lemmas on runs of the rule loop -/

/-- The rules before the first matching rule leave the record as it is, so the loop applies
that rule to the record it started from and runs the later rules on the result. -/
theorem apply_rules_c_first_match (loc : Locale) (T : dev_caps_struct)
    (pre : List replace_rule) (r : replace_rule) (post : List replace_rule) (s : T.record)
    (hpre : ∀ q ∈ pre, q.is_match (to_our_dev_caps loc T s) = false) :
    apply_rules_c loc T (pre ++ r :: post) s
      = post.foldl (fun b q => (q.apply_in_place_c loc T b).2)
          (r.apply_in_place_c loc T s).2 := by
  induction pre with
  | nil => rfl
  | cons q rest ih =>
    rw [List.cons_append, apply_rules_c_cons,
      apply_in_place_c_of_not_match loc q T s (hpre q (by simp))]
    exact ih (fun q' hq' => hpre q' (by simp [hq']))

theorem wMid_apply_in_place_c_of_match (loc : Locale) (r : replace_rule)
    (T : dev_caps_struct) (s : T.record)
    (hm : r.is_match (to_our_dev_caps loc T s) = true) (v : Nat)
    (hv : r.maybe_replace_man_id = some v) :
    T.wMid (r.apply_in_place_c loc T s).2 = v % 2 ^ 16 := by
  cases T
  · rw [apply_in_place_c_MIDIINCAPSA loc r s hm]
    simp [hv, dev_caps_struct.wMid, to_WORD]
  · rw [apply_in_place_c_MIDIINCAPSW loc r s hm]
    simp [hv, dev_caps_struct.wMid, to_WORD]
  · rw [apply_in_place_c_MIDIOUTCAPSA loc r s hm]
    simp [hv, dev_caps_struct.wMid, to_WORD]
  · rw [apply_in_place_c_MIDIOUTCAPSW loc r s hm]
    simp [hv, dev_caps_struct.wMid, to_WORD]

/-- On the wide shapes a record whose name is inside `szPname` keeps it inside after a rule
whose replacement name, if it has one, is shorter than the array. -/
theorem name_in_bounds_apply_in_place_c_wide (loc : Locale) (r : replace_rule)
    (T : dev_caps_struct) (s : T.record) (hT : dev_caps_char_type T = char_type.WCHAR)
    (hs : T.name_in_bounds s = true)
    (hn : ∀ n, r.maybe_replace_name = some n → n.length < MAXPNAMELEN) :
    T.name_in_bounds (r.apply_in_place_c loc T s).2 = true := by
  have key : ∀ x : List Nat, x.length = MAXPNAMELEN → 0 ∈ x →
      (wcscpy x (r.maybe_replace_name.getD (c_str x))).length = MAXPNAMELEN ∧
      0 ∈ wcscpy x (r.maybe_replace_name.getD (c_str x)) := by
    intro x hx h0
    cases hr : r.maybe_replace_name with
    | none =>
      simp only [Option.getD_none]
      rw [wcscpy_self x h0]
      exact ⟨hx, h0⟩
    | some n =>
      simp only [Option.getD_some]
      have hfit : (c_str n).length < x.length := by
        have := c_str_length_le n
        have := hn n hr
        omega
      refine ⟨by rw [wcscpy_length_of_fit x n hfit, hx], ?_⟩
      simp [wcscpy]
  by_cases hm : r.is_match (to_our_dev_caps loc T s) = true
  · cases T
    · simp [dev_caps_char_type] at hT
    · simp only [dev_caps_struct.name_in_bounds, dev_caps_struct.szPname, Bool.and_eq_true,
        decide_eq_true_eq] at hs ⊢
      rw [apply_in_place_c_MIDIINCAPSW loc r s hm]
      exact key s.szPname hs.1 hs.2
    · simp [dev_caps_char_type] at hT
    · simp only [dev_caps_struct.name_in_bounds, dev_caps_struct.szPname, Bool.and_eq_true,
        decide_eq_true_eq] at hs ⊢
      rw [apply_in_place_c_MIDIOUTCAPSW loc r s hm]
      exact key s.szPname hs.1 hs.2
  · rw [apply_in_place_c_of_not_match loc r T s (Bool.eq_false_iff.mpr hm)]
    exact hs

/-! ## C1: fold mode, later rule wins -/

/-- C1, as stated, fails: both rules match the native record and both replace the
manufacturer id, yet after the rule loop of `OVERRIDE_midiOutGetDevCapsW` the field holds the
value of the first rule, because the second rule is matched against the record as the first
rule left it and no longer matches. The same holds for `apply_in_place` on the canonical
record. -/
theorem fold_later_rule_wins_counterexample :
    ex_man_1_to_2.is_match (to_our_dev_caps ex_loc .MIDIOUTCAPSW ex_out) = true ∧
    ex_man_1_to_3.is_match (to_our_dev_caps ex_loc .MIDIOUTCAPSW ex_out) = true ∧
    ex_man_1_to_2.maybe_replace_man_id = some 2 ∧
    ex_man_1_to_3.maybe_replace_man_id = some 3 ∧
    (OVERRIDE_midiOutGetDevCapsW ex_w ex_loc [ex_man_1_to_2, ex_man_1_to_3] 0 ex_out
      sizeof_MIDIOUTCAPSW).2.wMid = 2 ∧
    (ex_man_1_to_3.apply_in_place
      (ex_man_1_to_2.apply_in_place
        (to_our_dev_caps ex_loc .MIDIOUTCAPSW ex_out)).2).2.man_id = 2 := by
  decide

/-- C1, amended: when the name stays inside `szPname` throughout (in the native record, in
the record the first rule leaves and in the record the second rule leaves) and the second
rule still matches the record as the first rule left it, every field the second rule
replaces holds the second rule's value after the rule loop of the capability overrides
(`apply_rules_c` on the list of the two rules), for every native shape: for a numeric value
that fits the native field, for a name without null that fits `szPname` of a wide shape, and
for the output fields on the output shapes. -/
theorem fold_later_rule_wins (loc : Locale) (T : dev_caps_struct) (s : T.record)
    (R1 R2 : replace_rule) :
    T.name_in_bounds s = true →
    T.name_in_bounds (R1.apply_in_place_c loc T s).2 = true →
    T.name_in_bounds (apply_rules_c loc T [R1, R2] s) = true →
    R2.is_match (to_our_dev_caps loc T (R1.apply_in_place_c loc T s).2) = true →
    (∀ v, R2.maybe_replace_man_id = some v → v < 2 ^ 16 →
      (to_our_dev_caps loc T (apply_rules_c loc T [R1, R2] s)).man_id = v) ∧
    (∀ v, R2.maybe_replace_prod_id = some v → v < 2 ^ 16 →
      (to_our_dev_caps loc T (apply_rules_c loc T [R1, R2] s)).prod_id = v) ∧
    (∀ v, R2.maybe_replace_driver_version = some v → v < 2 ^ 32 →
      (to_our_dev_caps loc T (apply_rules_c loc T [R1, R2] s)).driver_version = v) ∧
    (∀ n, R2.maybe_replace_name = some n → dev_caps_char_type T = .WCHAR →
      (∀ u ∈ n, u ≠ 0) → n.length < MAXPNAMELEN →
      (to_our_dev_caps loc T (apply_rules_c loc T [R1, R2] s)).name = n) ∧
    (∀ v, R2.maybe_replace_technology = some v → CapsDirection T = .Output → v < 2 ^ 16 →
      (to_our_dev_caps loc T (apply_rules_c loc T [R1, R2] s)).technology = some v) ∧
    (∀ v, R2.maybe_replace_voices = some v → CapsDirection T = .Output → v < 2 ^ 16 →
      (to_our_dev_caps loc T (apply_rules_c loc T [R1, R2] s)).voices = some v) ∧
    (∀ v, R2.maybe_replace_notes = some v → CapsDirection T = .Output → v < 2 ^ 16 →
      (to_our_dev_caps loc T (apply_rules_c loc T [R1, R2] s)).notes = some v) ∧
    (∀ v, R2.maybe_replace_channel_mask = some v → CapsDirection T = .Output → v < 2 ^ 16 →
      (to_our_dev_caps loc T (apply_rules_c loc T [R1, R2] s)).channel_mask = some v) ∧
    (∀ v, R2.maybe_replace_support = some v → CapsDirection T = .Output → v < 2 ^ 32 →
      (to_our_dev_caps loc T (apply_rules_c loc T [R1, R2] s)).support = some v) := by
  intro _ _ _ h2
  have e : apply_rules_c loc T [R1, R2] s
      = (R2.apply_in_place_c loc T (R1.apply_in_place_c loc T s).2).2 := rfl
  rw [e]
  obtain ⟨k1, k2, k3, k4, k5⟩ := to_our_dev_caps_apply_in_place_c loc R2 T _ h2
  refine ⟨?_, ?_, ?_, ?_, ?_, ?_, ?_, ?_, ?_⟩
  · intro v hv hlt
    rw [k1, hv]
    exact Nat.mod_eq_of_lt hlt
  · intro v hv hlt
    rw [k2, hv]
    exact Nat.mod_eq_of_lt hlt
  · intro v hv hlt
    rw [k3, hv]
    exact Nat.mod_eq_of_lt hlt
  · intro n hn hT hnull _
    rw [k4 hT, hn]
    exact c_str_of_no_null n hnull
  · intro v hv hT hlt
    rw [(k5 hT).1, hv]
    simpa [to_WORD] using hlt
  · intro v hv hT hlt
    rw [(k5 hT).2.1, hv]
    simpa [to_WORD] using hlt
  · intro v hv hT hlt
    rw [(k5 hT).2.2.1, hv]
    simpa [to_WORD] using hlt
  · intro v hv hT hlt
    rw [(k5 hT).2.2.2.1, hv]
    simpa [to_WORD] using hlt
  · intro v hv hT hlt
    rw [(k5 hT).2.2.2.2, hv]
    simpa [to_DWORD] using hlt

/-- Witness for C1: two rules that match every record and set the manufacturer id to 7 and
then to 9 leave 9 in the record; the name "Synth" stays inside `szPname` throughout. -/
theorem fold_later_rule_wins_witness :
    dev_caps_struct.name_in_bounds .MIDIOUTCAPSW ex_out = true ∧
    dev_caps_struct.name_in_bounds .MIDIOUTCAPSW
      (ex_man_to_7.apply_in_place_c ex_loc .MIDIOUTCAPSW ex_out).2 = true ∧
    dev_caps_struct.name_in_bounds .MIDIOUTCAPSW
      (apply_rules_c ex_loc .MIDIOUTCAPSW [ex_man_to_7, ex_man_to_9] ex_out) = true ∧
    ex_man_to_9.is_match (to_our_dev_caps ex_loc .MIDIOUTCAPSW
      (ex_man_to_7.apply_in_place_c ex_loc .MIDIOUTCAPSW ex_out).2) = true ∧
    (to_our_dev_caps ex_loc .MIDIOUTCAPSW
      (apply_rules_c ex_loc .MIDIOUTCAPSW [ex_man_to_7, ex_man_to_9] ex_out)).man_id = 9 :=
  ⟨by decide, by decide, by decide, by decide,
   (fold_later_rule_wins ex_loc .MIDIOUTCAPSW ex_out ex_man_to_7 ex_man_to_9 (by decide)
     (by decide) (by decide) (by decide)).1 9 rfl (by decide)⟩

/-! ## C2: first-match interface resolution -/

/-- C2: `get_maybe_interface_name_override` returns the `maybe_replace_interface_name` of the
first rule in list order that matches the queried record, and no override when no rule
matches; when the first two rules both match and the first has no interface override while
the second has one, the result is no override. -/
theorem first_match_interface_resolution (w : WinMM) (loc : Locale)
    (rules : List replace_rule) (devDirection : Direction) (deviceId : Nat) :
    get_maybe_interface_name_override w loc rules devDirection deviceId
      = (match rules.find? (fun r => r.is_match (queried_dev_caps w loc devDirection deviceId))
          with
         | some r => r.maybe_replace_interface_name
         | none => none) ∧
    ((∀ r ∈ rules, r.is_match (queried_dev_caps w loc devDirection deviceId) = false) →
      get_maybe_interface_name_override w loc rules devDirection deviceId = none) ∧
    (∀ (R1 R2 : replace_rule) (X : wstring) (rest : List replace_rule),
      rules = R1 :: R2 :: rest →
      R1.is_match (queried_dev_caps w loc devDirection deviceId) = true →
      R2.is_match (queried_dev_caps w loc devDirection deviceId) = true →
      R1.maybe_replace_interface_name = none →
      R2.maybe_replace_interface_name = some X →
      get_maybe_interface_name_override w loc rules devDirection deviceId = none) := by
  rw [get_maybe_interface_name_override_eq, interface_name_loop_eq_find]
  refine ⟨?_, ?_, ?_⟩
  · cases rules.find? (fun r => r.is_match (queried_dev_caps w loc devDirection deviceId))
      <;> rfl
  · intro hno
    have : rules.find? (fun r => r.is_match (queried_dev_caps w loc devDirection deviceId))
        = none := by
      rw [List.find?_eq_none]
      intro r hr
      simp [hno r hr]
    rw [this]
    rfl
  · intro R1 R2 X rest hrules h1 _ hnone _
    subst hrules
    simp [List.find?, h1, hnone]

/-- Witness for C2: a first rule that matches without an interface override hides the
override "X" of the second rule. -/
theorem first_match_interface_resolution_witness :
    ex_man_to_7.is_match (queried_dev_caps ex_w ex_loc .Input 0) = true ∧
    ex_iface_X.is_match (queried_dev_caps ex_w ex_loc .Input 0) = true ∧
    ex_man_to_7.maybe_replace_interface_name = none ∧
    ex_iface_X.maybe_replace_interface_name = some [88] ∧
    get_maybe_interface_name_override ex_w ex_loc [ex_man_to_7, ex_iface_X] .Input 0 = none :=
  ⟨by decide, by decide, rfl, rfl,
   (first_match_interface_resolution ex_w ex_loc [ex_man_to_7, ex_iface_X] .Input 0).2.2
     ex_man_to_7 ex_iface_X [88] [] rfl (by decide) (by decide) rfl rfl⟩

/-! ## C3: size-query phase -/

/-- C3: when the resolver yields an override text whose byte size fits the `ULONG` it is
reported in, `handle_QUERYDEVICEINTERFACESIZE` reports
`(character_count + 1) * sizeof(wchar_t)`; when the resolver yields no override, it returns
the return code and reports the size of the stock entry point for the direction,
`MMmidiInMessage` for an input device and `MMmidiOutMessage` for an output device, called
with `DRV_QUERYDEVICEINTERFACESIZE` on the local `sz`. -/
theorem size_query_reports (w : WinMM) (loc : Locale) (rules : List replace_rule)
    (devDirection : Direction) (hm : Nat) :
    (∀ t, get_maybe_interface_name_override w loc rules devDirection hm = some t →
      (t.length + 1) * sizeof_wchar_t < 2 ^ 32 →
      (handle_QUERYDEVICEINTERFACESIZE w loc rules devDirection hm).2
        = (t.length + 1) * sizeof_wchar_t) ∧
    (get_maybe_interface_name_override w loc rules devDirection hm = none →
      (devDirection = Direction.Input →
        (handle_QUERYDEVICEINTERFACESIZE w loc rules devDirection hm).2
          = (w.MMmidiInMessage_SIZE hm w.uninit_sz).2 ∧
        (handle_QUERYDEVICEINTERFACESIZE w loc rules devDirection hm).1
          = (w.MMmidiInMessage_SIZE hm w.uninit_sz).1) ∧
      (devDirection = Direction.Output →
        (handle_QUERYDEVICEINTERFACESIZE w loc rules devDirection hm).2
          = (w.MMmidiOutMessage_SIZE hm w.uninit_sz).2 ∧
        (handle_QUERYDEVICEINTERFACESIZE w loc rules devDirection hm).1
          = (w.MMmidiOutMessage_SIZE hm w.uninit_sz).1)) := by
  refine ⟨?_, ?_⟩
  · intro t ht hfit
    rw [handle_QUERYDEVICEINTERFACESIZE_of_some w loc rules devDirection hm t ht]
    exact to_DWORD_size_of_fit t.length hfit
  · intro hnone
    rw [handle_QUERYDEVICEINTERFACESIZE_of_none w loc rules devDirection hm hnone]
    refine ⟨?_, ?_⟩
    · intro hd
      subst hd
      exact ⟨rfl, rfl⟩
    · intro hd
      subst hd
      exact ⟨rfl, rfl⟩

/-- Witness for C3: for the override "X" the size phase reports `(1 + 1) * 2` bytes, and
without a rule it reports what `MMmidiOutMessage` reports for the output device. -/
theorem size_query_reports_witness :
    get_maybe_interface_name_override ex_w ex_loc [ex_iface_X] .Output 0 = some [88] ∧
    (1 + 1) * sizeof_wchar_t < 2 ^ 32 ∧
    (handle_QUERYDEVICEINTERFACESIZE ex_w ex_loc [ex_iface_X] .Output 0).2 = 4 ∧
    get_maybe_interface_name_override ex_w ex_loc [] .Output 0 = none ∧
    (handle_QUERYDEVICEINTERFACESIZE ex_w ex_loc [] .Output 0).2
      = (ex_w.MMmidiOutMessage_SIZE 0 ex_w.uninit_sz).2 :=
  ⟨by decide, by decide,
   (size_query_reports ex_w ex_loc [ex_iface_X] .Output 0).1 [88] (by decide) (by decide),
   by decide,
   (((size_query_reports ex_w ex_loc [] .Output 0).2 (by decide)).2 rfl).1⟩

/-! ## C4: data-query phase, truncation and termination -/

/-- C4, as stated, fails for a capacity below one code unit: with `dw2 = 0` and the override
"X", `handle_QUERYDEVICEINTERFACE` stores a null at index `2 ^ 64 - 1`, which is not inside
the capacity of zero code units and held another value after the native call, and no index
below the capacity holds a terminating null. -/
theorem data_query_counterexample :
    get_maybe_interface_name_override ex_w ex_loc [ex_iface_X] .Output 0 = some [88] ∧
    ¬ (2 ^ 64 - 1 < 0 / sizeof_wchar_t) ∧
    (native_QUERYDEVICEINTERFACE ex_w .Output 0 ex_mem 0).2 (2 ^ 64 - 1) = 65 ∧
    (handle_QUERYDEVICEINTERFACE ex_w ex_loc [ex_iface_X] .Output 0 ex_mem 0).2 (2 ^ 64 - 1)
      = 0 ∧
    ¬ ∃ k, k < 0 / sizeof_wchar_t ∧
      (handle_QUERYDEVICEINTERFACE ex_w ex_loc [ex_iface_X] .Output 0 ex_mem 0).2 k = 0 := by
  refine ⟨by decide, by decide, by decide, by decide, ?_⟩
  rintro ⟨k, hk, _⟩
  simp at hk

/-- C4, amended: for every override text and every capacity `dw2` of at least one code unit,
`handle_QUERYDEVICEINTERFACE` changes no code unit at or beyond the capacity, and the buffer
afterwards holds the first `k` units of the text followed by a null at index `k`, where
`k`, the smaller of the text length and the capacity minus one, is below the capacity in code
units; when the resolver yields no override, the return code and the memory are those of the
native call. -/
theorem data_query_truncates_and_terminates (w : WinMM) (loc : Locale)
    (rules : List replace_rule) (devDirection : Direction) (hm : Nat) (dw1 : wchar_mem)
    (dw2 : Nat) :
    (∀ t, get_maybe_interface_name_override w loc rules devDirection hm = some t →
      sizeof_wchar_t ≤ dw2 → dw2 < 2 ^ SIZE_BITS →
      (∀ i, dw2 / sizeof_wchar_t ≤ i →
        (handle_QUERYDEVICEINTERFACE w loc rules devDirection hm dw1 dw2).2 i
          = (native_QUERYDEVICEINTERFACE w devDirection hm dw1 dw2).2 i) ∧
      min (c_str t).length (dw2 / sizeof_wchar_t - 1) < dw2 / sizeof_wchar_t ∧
      (List.range (min (c_str t).length (dw2 / sizeof_wchar_t - 1))).map
          (handle_QUERYDEVICEINTERFACE w loc rules devDirection hm dw1 dw2).2
        = t.take (min (c_str t).length (dw2 / sizeof_wchar_t - 1)) ∧
      (handle_QUERYDEVICEINTERFACE w loc rules devDirection hm dw1 dw2).2
          (min (c_str t).length (dw2 / sizeof_wchar_t - 1)) = 0) ∧
    (get_maybe_interface_name_override w loc rules devDirection hm = none →
      handle_QUERYDEVICEINTERFACE w loc rules devDirection hm dw1 dw2
        = native_QUERYDEVICEINTERFACE w devDirection hm dw1 dw2) := by
  refine ⟨?_, handle_QUERYDEVICEINTERFACE_of_none w loc rules devDirection hm dw1 dw2⟩
  intro t ht h1 h2
  have hc := data_query_contents w loc rules devDirection hm dw1 dw2 t ht h1 h2
  have hn : 1 ≤ dw2 / sizeof_wchar_t := by
    simp only [sizeof_wchar_t] at *
    omega
  refine ⟨?_, ?_, ?_, ?_⟩
  · intro i hi
    rw [hc i]
    have l1 : ¬ i < dw2 / sizeof_wchar_t - 1 := by omega
    have l2 : ¬ i < dw2 / sizeof_wchar_t := by omega
    simp [l1, l2]
  · omega
  · have e : (List.range (min (c_str t).length (dw2 / sizeof_wchar_t - 1))).map
          (handle_QUERYDEVICEINTERFACE w loc rules devDirection hm dw1 dw2).2
        = (List.range (min (c_str t).length (dw2 / sizeof_wchar_t - 1))).map
            (fun i => (c_str t).getD i 0) := by
      apply List.map_congr_left
      intro i hi
      rw [List.mem_range] at hi
      rw [hc i]
      have l1 : i < dw2 / sizeof_wchar_t - 1 := by omega
      simp [l1]
    rw [e, map_range_getD _ _ (Nat.min_le_left _ _), c_str_take _ _ (Nat.min_le_left _ _)]
  · rw [hc]
    by_cases l : (c_str t).length ≤ dw2 / sizeof_wchar_t - 1
    · rw [Nat.min_eq_left l]
      by_cases l1 : (c_str t).length < dw2 / sizeof_wchar_t - 1
      · simp [l1, List.getD_eq_getElem?_getD]
      · have l2 : (c_str t).length < dw2 / sizeof_wchar_t := by omega
        simp [l1, l2]
    · rw [Nat.min_eq_right (by omega)]
      have l2 : dw2 / sizeof_wchar_t - 1 < dw2 / sizeof_wchar_t := by omega
      simp [l2]

/-- Witness for C4: with the override "X" and a capacity of 8 bytes the buffer holds "X" and
a null at index 1. -/
theorem data_query_truncates_and_terminates_witness :
    get_maybe_interface_name_override ex_w ex_loc [ex_iface_X] .Output 0 = some [88] ∧
    sizeof_wchar_t ≤ 8 ∧ 8 < 2 ^ SIZE_BITS ∧
    (List.range (min (c_str [88]).length (8 / sizeof_wchar_t - 1))).map
        (handle_QUERYDEVICEINTERFACE ex_w ex_loc [ex_iface_X] .Output 0 ex_mem 8).2
      = List.take (min (c_str [88]).length (8 / sizeof_wchar_t - 1)) [88] ∧
    (handle_QUERYDEVICEINTERFACE ex_w ex_loc [ex_iface_X] .Output 0 ex_mem 8).2
        (min (c_str [88]).length (8 / sizeof_wchar_t - 1)) = 0 :=
  ⟨by decide, by decide, by decide,
   ((data_query_truncates_and_terminates ex_w ex_loc [ex_iface_X] .Output 0 ex_mem 8).1 [88]
     (by decide) (by decide) (by decide)).2.2⟩

/-! ## C5: two-phase size/data consistency -/

/-- C5, as stated, fails on its instance: the text "Virtual MIDI In" has 15 characters, and
for it the size phase reports `(15 + 1) * 2 = 32` bytes, not `(16 + 1) * unit_width`. -/
theorem two_phase_consistency_counterexample :
    get_maybe_interface_name_override ex_w ex_loc [ex_iface_virtual] .Input 0
      = some L_Virtual_MIDI_In ∧
    L_Virtual_MIDI_In.length = 15 ∧
    (handle_QUERYDEVICEINTERFACESIZE ex_w ex_loc [ex_iface_virtual] .Input 0).2 = 32 ∧
    (handle_QUERYDEVICEINTERFACESIZE ex_w ex_loc [ex_iface_virtual] .Input 0).2
      ≠ (16 + 1) * sizeof_wchar_t := by
  decide

/-- C5, amended: when both phases resolve the same null-free override text `t` whose byte
size fits a `ULONG`, the size phase reports `S = (length t + 1) * sizeof(wchar_t)`; the data
phase with a capacity of at least `S` leaves exactly `t` followed by a null in the buffer;
with a capacity below `S` and of at least one code unit it leaves the text cut to fewer
units than `t` has, followed by a null in the last code unit of the capacity. For
"Virtual MIDI In", of 15 characters, `S` is 32. -/
theorem two_phase_consistency (w1 w2 : WinMM) (loc : Locale) (rules : List replace_rule)
    (devDirection : Direction) (hm : Nat) (dw1 : wchar_mem) (dw2 : Nat) (t : wstring)
    (hsize : get_maybe_interface_name_override w1 loc rules devDirection hm = some t)
    (hdata : get_maybe_interface_name_override w2 loc rules devDirection hm = some t)
    (hnull : ∀ u ∈ t, u ≠ 0)
    (hfit : (t.length + 1) * sizeof_wchar_t < 2 ^ 32)
    (hdw2 : dw2 < 2 ^ SIZE_BITS) :
    (handle_QUERYDEVICEINTERFACESIZE w1 loc rules devDirection hm).2
      = (t.length + 1) * sizeof_wchar_t ∧
    ((handle_QUERYDEVICEINTERFACESIZE w1 loc rules devDirection hm).2 ≤ dw2 →
      (List.range (t.length + 1)).map
          (handle_QUERYDEVICEINTERFACE w2 loc rules devDirection hm dw1 dw2).2
        = t ++ [0]) ∧
    (sizeof_wchar_t ≤ dw2 →
      dw2 < (handle_QUERYDEVICEINTERFACESIZE w1 loc rules devDirection hm).2 →
      dw2 / sizeof_wchar_t - 1 < t.length ∧
      (List.range (dw2 / sizeof_wchar_t - 1)).map
          (handle_QUERYDEVICEINTERFACE w2 loc rules devDirection hm dw1 dw2).2
        = t.take (dw2 / sizeof_wchar_t - 1) ∧
      (handle_QUERYDEVICEINTERFACE w2 loc rules devDirection hm dw1 dw2).2
          (dw2 / sizeof_wchar_t - 1) = 0) := by
  have hS : (handle_QUERYDEVICEINTERFACESIZE w1 loc rules devDirection hm).2
      = (t.length + 1) * sizeof_wchar_t := by
    rw [handle_QUERYDEVICEINTERFACESIZE_of_some w1 loc rules devDirection hm t hsize]
    exact to_DWORD_size_of_fit t.length hfit
  have hct : c_str t = t := c_str_of_no_null t hnull
  rw [hS]
  refine ⟨rfl, ?_, ?_⟩
  · intro hle
    have h1 : sizeof_wchar_t ≤ dw2 := by
      simp only [sizeof_wchar_t] at *
      omega
    have hn : t.length + 1 ≤ dw2 / sizeof_wchar_t := by
      simp only [sizeof_wchar_t] at *
      omega
    have hc := data_query_contents w2 loc rules devDirection hm dw1 dw2 t hdata h1 hdw2
    rw [List.range_succ, List.map_append]
    congr 1
    · have e : (List.range t.length).map
            (handle_QUERYDEVICEINTERFACE w2 loc rules devDirection hm dw1 dw2).2
          = (List.range t.length).map (fun i => t.getD i 0) := by
        apply List.map_congr_left
        intro i hi
        rw [List.mem_range] at hi
        rw [hc i, hct]
        have l1 : i < dw2 / sizeof_wchar_t - 1 := by omega
        simp [l1]
      rw [e, map_range_getD _ _ (Nat.le_refl _), List.take_length]
    · simp only [List.map_cons, List.map_nil, List.cons.injEq, and_true]
      rw [hc, hct]
      by_cases l1 : t.length < dw2 / sizeof_wchar_t - 1
      · simp [l1, List.getD_eq_getElem?_getD]
      · have l2 : t.length < dw2 / sizeof_wchar_t := by omega
        simp [l1, l2]
  · intro h1 hlt
    have hn : 1 ≤ dw2 / sizeof_wchar_t ∧ dw2 / sizeof_wchar_t ≤ t.length := by
      simp only [sizeof_wchar_t] at *
      omega
    have hc := data_query_contents w2 loc rules devDirection hm dw1 dw2 t hdata h1 hdw2
    refine ⟨by omega, ?_, ?_⟩
    · have e : (List.range (dw2 / sizeof_wchar_t - 1)).map
            (handle_QUERYDEVICEINTERFACE w2 loc rules devDirection hm dw1 dw2).2
          = (List.range (dw2 / sizeof_wchar_t - 1)).map (fun i => t.getD i 0) := by
        apply List.map_congr_left
        intro i hi
        rw [List.mem_range] at hi
        rw [hc i, hct]
        simp [hi]
      rw [e, map_range_getD _ _ (by omega)]
    · rw [hc]
      have l2 : dw2 / sizeof_wchar_t - 1 < dw2 / sizeof_wchar_t := by omega
      simp [l2]

/-- Witness for C5: for "Virtual MIDI In" the size phase reports 32 bytes, and the data
phase with a capacity of 32 bytes leaves the 15 characters and a null. -/
theorem two_phase_consistency_witness :
    get_maybe_interface_name_override ex_w ex_loc [ex_iface_virtual] .Input 0
      = some L_Virtual_MIDI_In ∧
    (∀ u ∈ L_Virtual_MIDI_In, u ≠ 0) ∧
    (L_Virtual_MIDI_In.length + 1) * sizeof_wchar_t < 2 ^ 32 ∧
    32 < 2 ^ SIZE_BITS ∧
    (handle_QUERYDEVICEINTERFACESIZE ex_w ex_loc [ex_iface_virtual] .Input 0).2
      = (L_Virtual_MIDI_In.length + 1) * sizeof_wchar_t ∧
    ((handle_QUERYDEVICEINTERFACESIZE ex_w ex_loc [ex_iface_virtual] .Input 0).2 ≤ 32 →
      (List.range (L_Virtual_MIDI_In.length + 1)).map
          (handle_QUERYDEVICEINTERFACE ex_w ex_loc [ex_iface_virtual] .Input 0 ex_mem 32).2
        = L_Virtual_MIDI_In ++ [0]) :=
  ⟨by decide, by decide, by decide, by decide,
   (two_phase_consistency ex_w ex_w ex_loc [ex_iface_virtual] .Input 0 ex_mem 32
     L_Virtual_MIDI_In (by decide) (by decide) (by decide) (by decide) (by decide)).1,
   (two_phase_consistency ex_w ex_w ex_loc [ex_iface_virtual] .Input 0 ex_mem 32
     L_Virtual_MIDI_In (by decide) (by decide) (by decide) (by decide) (by decide)).2.1⟩

/-! ## C6: capability interception, frame and return code -/

/-- C6: each of the four capability-query overrides returns the return code of its native
entry point, for every rule list; and when no rule of the list matches the normalised native
record, the buffer after the call is the buffer the native entry point produced. -/
theorem capability_query_frame (w : WinMM) (loc : Locale) (rules : List replace_rule)
    (deviceId cpmoc : Nat) (pmoc_out : MIDIOUTCAPS) (pmoc_in : MIDIINCAPS) :
    ((OVERRIDE_midiOutGetDevCapsA w loc rules deviceId pmoc_out cpmoc).1
        = (w.MMmidiOutGetDevCapsA deviceId pmoc_out cpmoc).1 ∧
      ((∀ r ∈ rules, r.is_match (to_our_dev_caps loc .MIDIOUTCAPSA
            (w.MMmidiOutGetDevCapsA deviceId pmoc_out cpmoc).2) = false) →
        (OVERRIDE_midiOutGetDevCapsA w loc rules deviceId pmoc_out cpmoc).2
          = (w.MMmidiOutGetDevCapsA deviceId pmoc_out cpmoc).2)) ∧
    ((OVERRIDE_midiOutGetDevCapsW w loc rules deviceId pmoc_out cpmoc).1
        = (w.MMmidiOutGetDevCapsW deviceId pmoc_out cpmoc).1 ∧
      ((∀ r ∈ rules, r.is_match (to_our_dev_caps loc .MIDIOUTCAPSW
            (w.MMmidiOutGetDevCapsW deviceId pmoc_out cpmoc).2) = false) →
        (OVERRIDE_midiOutGetDevCapsW w loc rules deviceId pmoc_out cpmoc).2
          = (w.MMmidiOutGetDevCapsW deviceId pmoc_out cpmoc).2)) ∧
    ((OVERRIDE_midiInGetDevCapsA w loc rules deviceId pmoc_in cpmoc).1
        = (w.MMmidiInGetDevCapsA deviceId pmoc_in cpmoc).1 ∧
      ((∀ r ∈ rules, r.is_match (to_our_dev_caps loc .MIDIINCAPSA
            (w.MMmidiInGetDevCapsA deviceId pmoc_in cpmoc).2) = false) →
        (OVERRIDE_midiInGetDevCapsA w loc rules deviceId pmoc_in cpmoc).2
          = (w.MMmidiInGetDevCapsA deviceId pmoc_in cpmoc).2)) ∧
    ((OVERRIDE_midiInGetDevCapsW w loc rules deviceId pmoc_in cpmoc).1
        = (w.MMmidiInGetDevCapsW deviceId pmoc_in cpmoc).1 ∧
      ((∀ r ∈ rules, r.is_match (to_our_dev_caps loc .MIDIINCAPSW
            (w.MMmidiInGetDevCapsW deviceId pmoc_in cpmoc).2) = false) →
        (OVERRIDE_midiInGetDevCapsW w loc rules deviceId pmoc_in cpmoc).2
          = (w.MMmidiInGetDevCapsW deviceId pmoc_in cpmoc).2)) := by
  rw [OVERRIDE_midiOutGetDevCapsA_eq, OVERRIDE_midiOutGetDevCapsW_eq,
    OVERRIDE_midiInGetDevCapsA_eq, OVERRIDE_midiInGetDevCapsW_eq]
  exact ⟨⟨rfl, apply_rules_c_of_no_match loc .MIDIOUTCAPSA rules _⟩,
    ⟨rfl, apply_rules_c_of_no_match loc .MIDIOUTCAPSW rules _⟩,
    ⟨rfl, apply_rules_c_of_no_match loc .MIDIINCAPSA rules _⟩,
    ⟨rfl, apply_rules_c_of_no_match loc .MIDIINCAPSW rules _⟩⟩

/-- Witness for C6: a rule that asks for product 9 does not match the native input record
of product 3, and the buffer after the override is the buffer the native call produced. -/
theorem capability_query_frame_witness :
    (∀ r ∈ [ex_prod_9_man_2],
      r.is_match (to_our_dev_caps ex_loc .MIDIINCAPSW
        (ex_w.MMmidiInGetDevCapsW 0 ex_in sizeof_MIDIINCAPSW).2) = false) ∧
    (OVERRIDE_midiInGetDevCapsW ex_w ex_loc [ex_prod_9_man_2] 0 ex_in sizeof_MIDIINCAPSW).2
      = (ex_w.MMmidiInGetDevCapsW 0 ex_in sizeof_MIDIINCAPSW).2 :=
  ⟨by decide,
   (capability_query_frame ex_w ex_loc [ex_prod_9_man_2] 0 sizeof_MIDIINCAPSW
     ex_out ex_in).2.2.2.2 (by decide)⟩

/-! ## C7: rewriting after a native error -/

/-- C7, as stated, fails: the native entry points return the error code 2 and leave the
buffer as it was, and the rule loop still applies a matching rule, so the caller's buffer
differs from what the native call left. -/
theorem no_rewriting_after_error_counterexample :
    ex_w_fail.MMmidiOutGetDevCapsW 0 ex_out sizeof_MIDIOUTCAPSW = (2, ex_out) ∧
    2 ≠ MMSYSERR_NOERROR ∧
    ex_out.wMid = 1 ∧
    (OVERRIDE_midiOutGetDevCapsW ex_w_fail ex_loc [ex_man_to_7] 0 ex_out
      sizeof_MIDIOUTCAPSW).1 = 2 ∧
    (OVERRIDE_midiOutGetDevCapsW ex_w_fail ex_loc [ex_man_to_7] 0 ex_out
      sizeof_MIDIOUTCAPSW).2.wMid = 7 ∧
    (OVERRIDE_midiInGetDevCapsW ex_w_fail ex_loc [ex_man_to_7] 0 ex_in
      sizeof_MIDIINCAPSW).1 = 2 ∧
    (OVERRIDE_midiInGetDevCapsW ex_w_fail ex_loc [ex_man_to_7] 0 ex_in
      sizeof_MIDIINCAPSW).2.wMid = 7 := by
  decide

/-- C7, amended: a native error does not stop the rule loop of a capability-query override.
Whatever code the native entry point returns, each of the four overrides returns that code;
when no rule matches the buffer as the native call left it, the buffer stays so; and when a
rule matches it and the name stays inside `szPname` all through the loop, the first such
rule is applied to it by `apply_in_place_c` and the later rules run on the result, so that,
when that rule is the last of the list and replaces the manufacturer id by `v`, the field
`wMid` of the caller's buffer holds `v` modulo `2 ^ 16` after the call. -/
theorem rewriting_after_native_error (w : WinMM) (loc : Locale)
    (rules : List replace_rule) (deviceId cpmoc : Nat) (pmoc_out : MIDIOUTCAPS)
    (pmoc_in : MIDIINCAPS) :
    ((OVERRIDE_midiOutGetDevCapsA w loc rules deviceId pmoc_out cpmoc).1
        = (w.MMmidiOutGetDevCapsA deviceId pmoc_out cpmoc).1 ∧
      ((∀ q ∈ rules, q.is_match (to_our_dev_caps loc .MIDIOUTCAPSA
            (w.MMmidiOutGetDevCapsA deviceId pmoc_out cpmoc).2) = false) →
        (OVERRIDE_midiOutGetDevCapsA w loc rules deviceId pmoc_out cpmoc).2
          = (w.MMmidiOutGetDevCapsA deviceId pmoc_out cpmoc).2) ∧
      (∀ (pre : List replace_rule) (r : replace_rule) (post : List replace_rule),
        rules = pre ++ r :: post →
        run_in_bounds loc .MIDIOUTCAPSA rules
          (w.MMmidiOutGetDevCapsA deviceId pmoc_out cpmoc).2 = true →
        (∀ q ∈ pre, q.is_match (to_our_dev_caps loc .MIDIOUTCAPSA
            (w.MMmidiOutGetDevCapsA deviceId pmoc_out cpmoc).2) = false) →
        r.is_match (to_our_dev_caps loc .MIDIOUTCAPSA
            (w.MMmidiOutGetDevCapsA deviceId pmoc_out cpmoc).2) = true →
        (OVERRIDE_midiOutGetDevCapsA w loc rules deviceId pmoc_out cpmoc).2
          = post.foldl (fun b q => (q.apply_in_place_c loc .MIDIOUTCAPSA b).2)
              (r.apply_in_place_c loc .MIDIOUTCAPSA
                (w.MMmidiOutGetDevCapsA deviceId pmoc_out cpmoc).2).2 ∧
        (post = [] → ∀ v, r.maybe_replace_man_id = some v →
          (OVERRIDE_midiOutGetDevCapsA w loc rules deviceId pmoc_out cpmoc).2.wMid = v % 2 ^ 16))) ∧
    ((OVERRIDE_midiOutGetDevCapsW w loc rules deviceId pmoc_out cpmoc).1
        = (w.MMmidiOutGetDevCapsW deviceId pmoc_out cpmoc).1 ∧
      ((∀ q ∈ rules, q.is_match (to_our_dev_caps loc .MIDIOUTCAPSW
            (w.MMmidiOutGetDevCapsW deviceId pmoc_out cpmoc).2) = false) →
        (OVERRIDE_midiOutGetDevCapsW w loc rules deviceId pmoc_out cpmoc).2
          = (w.MMmidiOutGetDevCapsW deviceId pmoc_out cpmoc).2) ∧
      (∀ (pre : List replace_rule) (r : replace_rule) (post : List replace_rule),
        rules = pre ++ r :: post →
        run_in_bounds loc .MIDIOUTCAPSW rules
          (w.MMmidiOutGetDevCapsW deviceId pmoc_out cpmoc).2 = true →
        (∀ q ∈ pre, q.is_match (to_our_dev_caps loc .MIDIOUTCAPSW
            (w.MMmidiOutGetDevCapsW deviceId pmoc_out cpmoc).2) = false) →
        r.is_match (to_our_dev_caps loc .MIDIOUTCAPSW
            (w.MMmidiOutGetDevCapsW deviceId pmoc_out cpmoc).2) = true →
        (OVERRIDE_midiOutGetDevCapsW w loc rules deviceId pmoc_out cpmoc).2
          = post.foldl (fun b q => (q.apply_in_place_c loc .MIDIOUTCAPSW b).2)
              (r.apply_in_place_c loc .MIDIOUTCAPSW
                (w.MMmidiOutGetDevCapsW deviceId pmoc_out cpmoc).2).2 ∧
        (post = [] → ∀ v, r.maybe_replace_man_id = some v →
          (OVERRIDE_midiOutGetDevCapsW w loc rules deviceId pmoc_out cpmoc).2.wMid = v % 2 ^ 16))) ∧
    ((OVERRIDE_midiInGetDevCapsA w loc rules deviceId pmoc_in cpmoc).1
        = (w.MMmidiInGetDevCapsA deviceId pmoc_in cpmoc).1 ∧
      ((∀ q ∈ rules, q.is_match (to_our_dev_caps loc .MIDIINCAPSA
            (w.MMmidiInGetDevCapsA deviceId pmoc_in cpmoc).2) = false) →
        (OVERRIDE_midiInGetDevCapsA w loc rules deviceId pmoc_in cpmoc).2
          = (w.MMmidiInGetDevCapsA deviceId pmoc_in cpmoc).2) ∧
      (∀ (pre : List replace_rule) (r : replace_rule) (post : List replace_rule),
        rules = pre ++ r :: post →
        run_in_bounds loc .MIDIINCAPSA rules
          (w.MMmidiInGetDevCapsA deviceId pmoc_in cpmoc).2 = true →
        (∀ q ∈ pre, q.is_match (to_our_dev_caps loc .MIDIINCAPSA
            (w.MMmidiInGetDevCapsA deviceId pmoc_in cpmoc).2) = false) →
        r.is_match (to_our_dev_caps loc .MIDIINCAPSA
            (w.MMmidiInGetDevCapsA deviceId pmoc_in cpmoc).2) = true →
        (OVERRIDE_midiInGetDevCapsA w loc rules deviceId pmoc_in cpmoc).2
          = post.foldl (fun b q => (q.apply_in_place_c loc .MIDIINCAPSA b).2)
              (r.apply_in_place_c loc .MIDIINCAPSA
                (w.MMmidiInGetDevCapsA deviceId pmoc_in cpmoc).2).2 ∧
        (post = [] → ∀ v, r.maybe_replace_man_id = some v →
          (OVERRIDE_midiInGetDevCapsA w loc rules deviceId pmoc_in cpmoc).2.wMid = v % 2 ^ 16))) ∧
    ((OVERRIDE_midiInGetDevCapsW w loc rules deviceId pmoc_in cpmoc).1
        = (w.MMmidiInGetDevCapsW deviceId pmoc_in cpmoc).1 ∧
      ((∀ q ∈ rules, q.is_match (to_our_dev_caps loc .MIDIINCAPSW
            (w.MMmidiInGetDevCapsW deviceId pmoc_in cpmoc).2) = false) →
        (OVERRIDE_midiInGetDevCapsW w loc rules deviceId pmoc_in cpmoc).2
          = (w.MMmidiInGetDevCapsW deviceId pmoc_in cpmoc).2) ∧
      (∀ (pre : List replace_rule) (r : replace_rule) (post : List replace_rule),
        rules = pre ++ r :: post →
        run_in_bounds loc .MIDIINCAPSW rules
          (w.MMmidiInGetDevCapsW deviceId pmoc_in cpmoc).2 = true →
        (∀ q ∈ pre, q.is_match (to_our_dev_caps loc .MIDIINCAPSW
            (w.MMmidiInGetDevCapsW deviceId pmoc_in cpmoc).2) = false) →
        r.is_match (to_our_dev_caps loc .MIDIINCAPSW
            (w.MMmidiInGetDevCapsW deviceId pmoc_in cpmoc).2) = true →
        (OVERRIDE_midiInGetDevCapsW w loc rules deviceId pmoc_in cpmoc).2
          = post.foldl (fun b q => (q.apply_in_place_c loc .MIDIINCAPSW b).2)
              (r.apply_in_place_c loc .MIDIINCAPSW
                (w.MMmidiInGetDevCapsW deviceId pmoc_in cpmoc).2).2 ∧
        (post = [] → ∀ v, r.maybe_replace_man_id = some v →
          (OVERRIDE_midiInGetDevCapsW w loc rules deviceId pmoc_in cpmoc).2.wMid = v % 2 ^ 16))) := by
  refine ⟨?_, ?_, ?_, ?_⟩
  · rw [OVERRIDE_midiOutGetDevCapsA_eq]
    refine ⟨rfl, apply_rules_c_of_no_match loc .MIDIOUTCAPSA rules _, ?_⟩
    intro pre r post hrules _ hpre hr
    subst hrules
    have e := apply_rules_c_first_match loc .MIDIOUTCAPSA pre r post _ hpre
    refine ⟨e, ?_⟩
    intro hpost v hv
    subst hpost
    have k := wMid_apply_in_place_c_of_match loc r .MIDIOUTCAPSA _ hr v hv
    simp only [e, List.foldl_nil]
    exact k
  · rw [OVERRIDE_midiOutGetDevCapsW_eq]
    refine ⟨rfl, apply_rules_c_of_no_match loc .MIDIOUTCAPSW rules _, ?_⟩
    intro pre r post hrules _ hpre hr
    subst hrules
    have e := apply_rules_c_first_match loc .MIDIOUTCAPSW pre r post _ hpre
    refine ⟨e, ?_⟩
    intro hpost v hv
    subst hpost
    have k := wMid_apply_in_place_c_of_match loc r .MIDIOUTCAPSW _ hr v hv
    simp only [e, List.foldl_nil]
    exact k
  · rw [OVERRIDE_midiInGetDevCapsA_eq]
    refine ⟨rfl, apply_rules_c_of_no_match loc .MIDIINCAPSA rules _, ?_⟩
    intro pre r post hrules _ hpre hr
    subst hrules
    have e := apply_rules_c_first_match loc .MIDIINCAPSA pre r post _ hpre
    refine ⟨e, ?_⟩
    intro hpost v hv
    subst hpost
    have k := wMid_apply_in_place_c_of_match loc r .MIDIINCAPSA _ hr v hv
    simp only [e, List.foldl_nil]
    exact k
  · rw [OVERRIDE_midiInGetDevCapsW_eq]
    refine ⟨rfl, apply_rules_c_of_no_match loc .MIDIINCAPSW rules _, ?_⟩
    intro pre r post hrules _ hpre hr
    subst hrules
    have e := apply_rules_c_first_match loc .MIDIINCAPSW pre r post _ hpre
    refine ⟨e, ?_⟩
    intro hpost v hv
    subst hpost
    have k := wMid_apply_in_place_c_of_match loc r .MIDIINCAPSW _ hr v hv
    simp only [e, List.foldl_nil]
    exact k

/-- Witness for C7: the native call fails with code 2 and leaves `ex_out`; the rule for
product 9 does not match it, the rule that sets the manufacturer id to 7 does, and the
caller's buffer holds 7 in `wMid` after the override. -/
theorem rewriting_after_native_error_witness :
    (ex_w_fail.MMmidiOutGetDevCapsW 0 ex_out sizeof_MIDIOUTCAPSW).1 = 2 ∧
    2 ≠ MMSYSERR_NOERROR ∧
    run_in_bounds ex_loc .MIDIOUTCAPSW [ex_prod_9_man_2, ex_man_to_7]
      (ex_w_fail.MMmidiOutGetDevCapsW 0 ex_out sizeof_MIDIOUTCAPSW).2 = true ∧
    (∀ q ∈ [ex_prod_9_man_2], q.is_match (to_our_dev_caps ex_loc .MIDIOUTCAPSW
      (ex_w_fail.MMmidiOutGetDevCapsW 0 ex_out sizeof_MIDIOUTCAPSW).2) = false) ∧
    ex_man_to_7.is_match (to_our_dev_caps ex_loc .MIDIOUTCAPSW
      (ex_w_fail.MMmidiOutGetDevCapsW 0 ex_out sizeof_MIDIOUTCAPSW).2) = true ∧
    (OVERRIDE_midiOutGetDevCapsW ex_w_fail ex_loc [ex_prod_9_man_2, ex_man_to_7] 0 ex_out
      sizeof_MIDIOUTCAPSW).2.wMid = 7 :=
  ⟨by decide, by decide, by decide, by decide, by decide,
   ((rewriting_after_native_error ex_w_fail ex_loc [ex_prod_9_man_2, ex_man_to_7] 0
     sizeof_MIDIOUTCAPSW ex_out ex_in).2.1.2.2 [ex_prod_9_man_2] ex_man_to_7 [] rfl
     (by decide) (by decide) (by decide)).2 rfl 7 rfl⟩

/-! ## C9: direction gating -/

/-- C9, as stated, fails: the canonical record of an input shape has its five output-only
fields absent, and `apply_in_place` with a rule that replaces the technology sets the
technology of that record, so the record differs from the one the rule without its
output-only replacements gives. -/
theorem direction_gating_counterexample :
    (to_our_dev_caps ex_loc .MIDIINCAPSW ex_in).direction = Direction.Input ∧
    (to_our_dev_caps ex_loc .MIDIINCAPSW ex_in).technology = none ∧
    (to_our_dev_caps ex_loc .MIDIINCAPSW ex_in).voices = none ∧
    (to_our_dev_caps ex_loc .MIDIINCAPSW ex_in).notes = none ∧
    (to_our_dev_caps ex_loc .MIDIINCAPSW ex_in).channel_mask = none ∧
    (to_our_dev_caps ex_loc .MIDIINCAPSW ex_in).support = none ∧
    (ex_tech_to_5.apply_in_place (to_our_dev_caps ex_loc .MIDIINCAPSW ex_in)).2.technology
      = some 5 ∧
    (ex_tech_to_5.apply_in_place (to_our_dev_caps ex_loc .MIDIINCAPSW ex_in)).2
      ≠ (ex_tech_to_5.without_output_replacements.apply_in_place
          (to_our_dev_caps ex_loc .MIDIINCAPSW ex_in)).2 := by
  decide

/-- C9, amended: for every input shape, every native record of that shape and every rule,
the native record after `apply_in_place_c` equals the one obtained with the rule whose
output-only replacements are removed; and for every canonical record the match result and
the common fields (direction, manufacturer, product, driver version, name) after
`apply_in_place` are those the rule without its output-only replacements gives. -/
theorem direction_gating (loc : Locale) (r : replace_rule) :
    (∀ (T : dev_caps_struct) (s : T.record), CapsDirection T = Direction.Input →
      r.apply_in_place_c loc T s
        = r.without_output_replacements.apply_in_place_c loc T s) ∧
    (∀ m : midi_dev_caps,
      (r.apply_in_place m).1 = (r.without_output_replacements.apply_in_place m).1 ∧
      (r.apply_in_place m).2.direction
        = (r.without_output_replacements.apply_in_place m).2.direction ∧
      (r.apply_in_place m).2.man_id
        = (r.without_output_replacements.apply_in_place m).2.man_id ∧
      (r.apply_in_place m).2.prod_id
        = (r.without_output_replacements.apply_in_place m).2.prod_id ∧
      (r.apply_in_place m).2.driver_version
        = (r.without_output_replacements.apply_in_place m).2.driver_version ∧
      (r.apply_in_place m).2.name
        = (r.without_output_replacements.apply_in_place m).2.name) := by
  refine ⟨?_, ?_⟩
  · intro T s hT
    by_cases h : r.is_match (to_our_dev_caps loc T s) = true
    · have h' : r.without_output_replacements.is_match (to_our_dev_caps loc T s) = true := h
      cases T
      · rw [apply_in_place_c_MIDIINCAPSA loc r s h,
          apply_in_place_c_MIDIINCAPSA loc _ s h']
        rfl
      · rw [apply_in_place_c_MIDIINCAPSW loc r s h,
          apply_in_place_c_MIDIINCAPSW loc _ s h']
        rfl
      · simp [CapsDirection] at hT
      · simp [CapsDirection] at hT
    · have h0 : r.is_match (to_our_dev_caps loc T s) = false := Bool.eq_false_iff.mpr h
      have h0' : r.without_output_replacements.is_match (to_our_dev_caps loc T s) = false :=
        h0
      rw [apply_in_place_c_of_not_match loc r T s h0,
        apply_in_place_c_of_not_match loc _ T s h0']
  · intro m
    by_cases h : r.is_match m = true
    · have h' : r.without_output_replacements.is_match m = true := h
      rw [apply_in_place_of_match r m h, apply_in_place_of_match _ m h']
      exact ⟨rfl, rfl, rfl, rfl, rfl, rfl⟩
    · have h0 : r.is_match m = false := Bool.eq_false_iff.mpr h
      have h0' : r.without_output_replacements.is_match m = false := h0
      rw [apply_in_place_of_not_match r m h0, apply_in_place_of_not_match _ m h0']
      exact ⟨rfl, rfl, rfl, rfl, rfl, rfl⟩

/-- Witness for C9: on the wide input shape a rule that replaces the technology leaves the
native record as the same rule without that replacement does. -/
theorem direction_gating_witness :
    CapsDirection .MIDIINCAPSW = Direction.Input ∧
    ex_tech_to_5.apply_in_place_c ex_loc .MIDIINCAPSW ex_in
      = ex_tech_to_5.without_output_replacements.apply_in_place_c ex_loc .MIDIINCAPSW ex_in :=
  ⟨rfl, (direction_gating ex_loc ex_tech_to_5).1 .MIDIINCAPSW ex_in rfl⟩

/-! ## C10: identity law -/

/-- C10: for the wide shapes, applying a matching rule that carries no capability
replacement to a well-formed native record (numeric fields within their machine types, name
null-terminated inside its array) writes back the normalised record and reproduces the
native record exactly. -/
theorem normalize_denormalize_identity (loc : Locale) (r : replace_rule)
    (hr : r.no_capability_replacement = true) :
    (∀ s : MIDIINCAPS, s.well_formed = true →
      r.is_match (to_our_dev_caps loc .MIDIINCAPSW s) = true →
      r.apply_in_place_c loc .MIDIINCAPSW s = (true, s)) ∧
    (∀ s : MIDIOUTCAPS, s.well_formed = true →
      r.is_match (to_our_dev_caps loc .MIDIOUTCAPSW s) = true →
      r.apply_in_place_c loc .MIDIOUTCAPSW s = (true, s)) := by
  simp only [replace_rule.no_capability_replacement, Bool.and_eq_true,
    Option.isNone_iff_eq_none] at hr
  obtain ⟨⟨⟨⟨⟨⟨⟨⟨r1, r2⟩, r3⟩, r4⟩, r5⟩, r6⟩, r7⟩, r8⟩, r9⟩ := hr
  refine ⟨?_, ?_⟩
  · intro s hs hm
    simp only [MIDIINCAPS.well_formed, Bool.and_eq_true, decide_eq_true_eq] at hs
    obtain ⟨⟨⟨s1, s2⟩, s3⟩, s4⟩ := hs
    rw [apply_in_place_c_MIDIINCAPSW loc r s hm, r1, r2, r3, r4]
    simp only [Option.getD_none, to_WORD, to_DWORD, Nat.mod_eq_of_lt s1, Nat.mod_eq_of_lt s2,
      Nat.mod_eq_of_lt s3, wcscpy_self s.szPname (List.mem_of_mem_take s4)]
  · intro s hs hm
    simp only [MIDIOUTCAPS.well_formed, Bool.and_eq_true, decide_eq_true_eq] at hs
    obtain ⟨⟨⟨⟨⟨⟨⟨⟨s1, s2⟩, s3⟩, s4⟩, s5⟩, s6⟩, s7⟩, s8⟩, s9⟩ := hs
    rw [apply_in_place_c_MIDIOUTCAPSW loc r s hm, r1, r2, r3, r4, r5, r6, r7, r8, r9]
    simp only [Option.getD_none, to_WORD, to_DWORD, Nat.mod_eq_of_lt s1, Nat.mod_eq_of_lt s2,
      Nat.mod_eq_of_lt s3, Nat.mod_eq_of_lt s5, Nat.mod_eq_of_lt s6, Nat.mod_eq_of_lt s7,
      Nat.mod_eq_of_lt s8, Nat.mod_eq_of_lt s9,
      wcscpy_self s.szPname (List.mem_of_mem_take s4)]

/-- Witness for C10: a rule with only an interface-name override reproduces the native
output record `ex_out`. -/
theorem normalize_denormalize_identity_witness :
    ex_iface_X.no_capability_replacement = true ∧
    ex_out.well_formed = true ∧
    ex_iface_X.is_match (to_our_dev_caps ex_loc .MIDIOUTCAPSW ex_out) = true ∧
    ex_iface_X.apply_in_place_c ex_loc .MIDIOUTCAPSW ex_out = (true, ex_out) :=
  ⟨by decide, by decide, by decide,
   (normalize_denormalize_identity ex_loc ex_iface_X (by decide)).2 ex_out (by decide)
     (by decide)⟩

/-! ## C8: invalid rule rejection -/

/-- C8: for every sequence of configured rule records that are well formed apart from their
replace keys, the rule loop of `load_config` appends to the active list exactly the rules
loaded from the records that have at least one of the ten replace keys, in configured order;
every appended rule has a replacement value; and the active list grows by `N - K`, where `K`
counts the records without any replace key. -/
theorem invalid_rule_rejection (loc : Locale) (wregex_ctor : wstring → Option wregex)
    (rules : List json_rule) (g_replace_rules : List replace_rule)
    (hwf : ∀ rule ∈ rules, rule.well_formed loc wregex_ctor = true) :
    (∃ loaded : List replace_rule,
      load_config_rules loc wregex_ctor rules g_replace_rules = g_replace_rules ++ loaded ∧
      List.Forall₂ (fun rule rval => load_rule loc wregex_ctor rule = .ok rval)
        (rules.filter json_rule.has_replace_key) loaded ∧
      (∀ rval ∈ loaded, rval.has_replace_value = true)) ∧
    (load_config_rules loc wregex_ctor rules g_replace_rules).length
      = g_replace_rules.length
        + (rules.length - rules.countP (fun rule => !rule.has_replace_key)) := by
  obtain ⟨loaded, h1, h2, h3, h4⟩ :=
    load_config_rules_spec loc wregex_ctor rules hwf g_replace_rules
  refine ⟨⟨loaded, h1, h2, h3⟩, ?_⟩
  rw [h1, List.length_append]
  omega

/-- Witness for C8: of three well-formed records, one without a replace key, two rules are
loaded. -/
theorem invalid_rule_rejection_witness :
    (∀ rule ∈ ex_json_rules, rule.well_formed ex_loc ex_wregex_ctor = true) ∧
    (load_config_rules ex_loc ex_wregex_ctor ex_json_rules []).length
      = ([] : List replace_rule).length
        + (ex_json_rules.length - ex_json_rules.countP (fun rule => !rule.has_replace_key)) :=
  ⟨by decide, (invalid_rule_rejection ex_loc ex_wregex_ctor ex_json_rules [] (by decide)).2⟩

/-! ## C13: predicate semantics -/

/-- C13: `is_match` is true exactly when every predicate present on the rule holds: the
direction is equal, the manufacturer id, product id and driver version are equal, and
`std::regex_match` accepts the whole name for the pattern; so a rule without match
predicates matches every record, and a rule that keeps every predicate of another rule and
adds more matches only records the other rule matches. -/
theorem predicate_semantics (r : replace_rule) (m : midi_dev_caps) :
    (r.is_match m = true ↔
      (∀ d, r.maybe_match_direction = some d → d = m.direction) ∧
      (∀ re, r.maybe_match_name = some re → re.regex_match m.name = true) ∧
      (∀ v, r.maybe_match_man_id = some v → v = m.man_id) ∧
      (∀ v, r.maybe_match_prod_id = some v → v = m.prod_id) ∧
      (∀ v, r.maybe_match_driver_version = some v → v = m.driver_version)) ∧
    (r.maybe_match_direction = none → r.maybe_match_name = none →
      r.maybe_match_man_id = none → r.maybe_match_prod_id = none →
      r.maybe_match_driver_version = none → r.is_match m = true) ∧
    (∀ r2 : replace_rule,
      (r.maybe_match_direction = none ∨ r2.maybe_match_direction = r.maybe_match_direction) →
      (r.maybe_match_name = none ∨ r2.maybe_match_name = r.maybe_match_name) →
      (r.maybe_match_man_id = none ∨ r2.maybe_match_man_id = r.maybe_match_man_id) →
      (r.maybe_match_prod_id = none ∨ r2.maybe_match_prod_id = r.maybe_match_prod_id) →
      (r.maybe_match_driver_version = none ∨
        r2.maybe_match_driver_version = r.maybe_match_driver_version) →
      r2.is_match m = true → r.is_match m = true) := by
  refine ⟨is_match_iff r m, ?_, ?_⟩
  · intro h1 h2 h3 h4 h5
    rw [is_match_iff, h1, h2, h3, h4, h5]
    simp
  · intro r2 h1 h2 h3 h4 h5 hm
    rw [is_match_iff] at hm ⊢
    obtain ⟨k1, k2, k3, k4, k5⟩ := hm
    refine ⟨?_, ?_, ?_, ?_, ?_⟩
    · intro d hd
      rcases h1 with e | e
      · rw [e] at hd; cases hd
      · exact k1 d (e.trans hd)
    · intro re hre
      rcases h2 with e | e
      · rw [e] at hre; cases hre
      · exact k2 re (e.trans hre)
    · intro v hv
      rcases h3 with e | e
      · rw [e] at hv; cases hv
      · exact k3 v (e.trans hv)
    · intro v hv
      rcases h4 with e | e
      · rw [e] at hv; cases hv
      · exact k4 v (e.trans hv)
    · intro v hv
      rcases h5 with e | e
      · rw [e] at hv; cases hv
      · exact k5 v (e.trans hv)

/-- Witness for C13: the rule for manufacturer 1 and the pattern "Synth" keeps the pattern
of the rule for "Synth" and adds a predicate; it matches the record `ex_out`, named "Synth",
and so does the rule with the pattern alone. The record named "Synth 2", of which "Synth" is
only a part, is not matched. -/
theorem predicate_semantics_witness :
    ex_man_1_name_Synth.is_match (to_our_dev_caps ex_loc .MIDIOUTCAPSW ex_out) = true ∧
    ex_name_Synth.is_match (to_our_dev_caps ex_loc .MIDIOUTCAPSW ex_out) = true ∧
    ex_name_Synth.is_match ex_caps_Synth_2 = false :=
  ⟨by decide,
   (predicate_semantics ex_name_Synth (to_our_dev_caps ex_loc .MIDIOUTCAPSW ex_out)).2.2
     ex_man_1_name_Synth (Or.inl rfl) (Or.inr rfl) (Or.inl rfl) (Or.inl rfl) (Or.inl rfl)
     (by decide),
   by decide⟩

/-! ## C12: numeric values through write-back -/

/-- C12, as stated, fails: a matching rule with the manufacturer id 65537 leaves 1 in the
16-bit field `wMid` of the native record and in the record normalised from it. -/
theorem numeric_write_back_counterexample :
    ex_man_to_65537.is_match (to_our_dev_caps ex_loc .MIDIOUTCAPSW ex_out) = true ∧
    ex_man_to_65537.maybe_replace_man_id = some 65537 ∧
    (ex_man_to_65537.apply_in_place_c ex_loc .MIDIOUTCAPSW ex_out).2.wMid = 1 ∧
    (to_our_dev_caps ex_loc .MIDIOUTCAPSW
      (ex_man_to_65537.apply_in_place_c ex_loc .MIDIOUTCAPSW ex_out).2).man_id = 1 := by
  decide

/-- C12, amended: for every shape, every native record and every rule that matches it, a
replacement value `v` arrives in the native field after `apply_in_place_c`, and in the record
normalised from that buffer, reduced to the width of the native field: modulo `2 ^ 16` for
the manufacturer id, product id, technology, voices, notes and channel mask, modulo
`2 ^ 32` for the driver version and the support flags; the five output-only values on the
output shapes only. -/
theorem numeric_write_back (loc : Locale) (r : replace_rule) (T : dev_caps_struct)
    (s : T.record) (hm : r.is_match (to_our_dev_caps loc T s) = true) :
    (∀ v, r.maybe_replace_man_id = some v →
      T.wMid (r.apply_in_place_c loc T s).2 = v % 2 ^ 16 ∧
      (to_our_dev_caps loc T (r.apply_in_place_c loc T s).2).man_id = v % 2 ^ 16) ∧
    (∀ v, r.maybe_replace_prod_id = some v →
      T.wPid (r.apply_in_place_c loc T s).2 = v % 2 ^ 16 ∧
      (to_our_dev_caps loc T (r.apply_in_place_c loc T s).2).prod_id = v % 2 ^ 16) ∧
    (∀ v, r.maybe_replace_driver_version = some v →
      T.vDriverVersion (r.apply_in_place_c loc T s).2 = v % 2 ^ 32 ∧
      (to_our_dev_caps loc T (r.apply_in_place_c loc T s).2).driver_version = v % 2 ^ 32) ∧
    (∀ v, r.maybe_replace_technology = some v → CapsDirection T = Direction.Output →
      T.wTechnology (r.apply_in_place_c loc T s).2 = some (v % 2 ^ 16) ∧
      (to_our_dev_caps loc T (r.apply_in_place_c loc T s).2).technology
        = some (v % 2 ^ 16)) ∧
    (∀ v, r.maybe_replace_voices = some v → CapsDirection T = Direction.Output →
      T.wVoices (r.apply_in_place_c loc T s).2 = some (v % 2 ^ 16) ∧
      (to_our_dev_caps loc T (r.apply_in_place_c loc T s).2).voices = some (v % 2 ^ 16)) ∧
    (∀ v, r.maybe_replace_notes = some v → CapsDirection T = Direction.Output →
      T.wNotes (r.apply_in_place_c loc T s).2 = some (v % 2 ^ 16) ∧
      (to_our_dev_caps loc T (r.apply_in_place_c loc T s).2).notes = some (v % 2 ^ 16)) ∧
    (∀ v, r.maybe_replace_channel_mask = some v → CapsDirection T = Direction.Output →
      T.wChannelMask (r.apply_in_place_c loc T s).2 = some (v % 2 ^ 16) ∧
      (to_our_dev_caps loc T (r.apply_in_place_c loc T s).2).channel_mask
        = some (v % 2 ^ 16)) ∧
    (∀ v, r.maybe_replace_support = some v → CapsDirection T = Direction.Output →
      T.dwSupport (r.apply_in_place_c loc T s).2 = v % 2 ^ 32 ∧
      (to_our_dev_caps loc T (r.apply_in_place_c loc T s).2).support = some (v % 2 ^ 32)) := by
  cases T
  · rw [apply_in_place_c_MIDIINCAPSA loc r s hm]
    refine ⟨?_, ?_, ?_, ?_, ?_, ?_, ?_, ?_⟩ <;> intro v hv <;>
      simp [hv, CapsDirection, dev_caps_struct.wMid, dev_caps_struct.wPid,
        dev_caps_struct.vDriverVersion, to_our_dev_caps, to_WORD, to_DWORD]
  · rw [apply_in_place_c_MIDIINCAPSW loc r s hm]
    refine ⟨?_, ?_, ?_, ?_, ?_, ?_, ?_, ?_⟩ <;> intro v hv <;>
      simp [hv, CapsDirection, dev_caps_struct.wMid, dev_caps_struct.wPid,
        dev_caps_struct.vDriverVersion, to_our_dev_caps, to_WORD, to_DWORD]
  · rw [apply_in_place_c_MIDIOUTCAPSA loc r s hm]
    refine ⟨?_, ?_, ?_, ?_, ?_, ?_, ?_, ?_⟩ <;> intro v hv <;>
      simp [hv, CapsDirection, dev_caps_struct.wMid, dev_caps_struct.wPid,
        dev_caps_struct.vDriverVersion, dev_caps_struct.dwSupport,
        dev_caps_struct.wTechnology, dev_caps_struct.wVoices, dev_caps_struct.wNotes,
        dev_caps_struct.wChannelMask, to_our_dev_caps, to_WORD, to_DWORD]
  · rw [apply_in_place_c_MIDIOUTCAPSW loc r s hm]
    refine ⟨?_, ?_, ?_, ?_, ?_, ?_, ?_, ?_⟩ <;> intro v hv <;>
      simp [hv, CapsDirection, dev_caps_struct.wMid, dev_caps_struct.wPid,
        dev_caps_struct.vDriverVersion, dev_caps_struct.dwSupport,
        dev_caps_struct.wTechnology, dev_caps_struct.wVoices, dev_caps_struct.wNotes,
        dev_caps_struct.wChannelMask, to_our_dev_caps, to_WORD, to_DWORD]

/-- Witness for C12: the manufacturer id 7 of a rule that matches every record arrives in
`wMid` of the native output record, 7 being below `2 ^ 16`. -/
theorem numeric_write_back_witness :
    ex_man_to_7.is_match (to_our_dev_caps ex_loc .MIDIOUTCAPSW ex_out) = true ∧
    dev_caps_struct.wMid .MIDIOUTCAPSW
        (ex_man_to_7.apply_in_place_c ex_loc .MIDIOUTCAPSW ex_out).2 = 7 ∧
    (to_our_dev_caps ex_loc .MIDIOUTCAPSW
        (ex_man_to_7.apply_in_place_c ex_loc .MIDIOUTCAPSW ex_out).2).man_id = 7 :=
  ⟨by decide,
   (numeric_write_back ex_loc ex_man_to_7 .MIDIOUTCAPSW ex_out (by decide)).1 7 rfl⟩

/-! ## C11: name write-back into the native buffer -/

/-- C11 fails on the code: for a matching rule whose replacement name has forty code units,
`apply_in_place_c` stores all forty units and the null from the start of `szPname`, an array
of `MAXPNAMELEN = 32` units, so that nine units are stored past its end; here for the wide
output shape and for the narrow input shape. -/
theorem name_write_back_overflow :
    ex_name_40.maybe_replace_name = some (List.replicate 40 65) ∧
    ex_name_40.is_match (to_our_dev_caps ex_loc .MIDIOUTCAPSW ex_out) = true ∧
    ex_out.szPname.length = MAXPNAMELEN ∧
    (ex_name_40.apply_in_place_c ex_loc .MIDIOUTCAPSW ex_out).2.szPname
      = List.replicate 40 65 ++ [0] ∧
    (ex_name_40.apply_in_place_c ex_loc .MIDIOUTCAPSW ex_out).2.szPname.length
      = MAXPNAMELEN + 9 ∧
    ex_name_40.is_match (to_our_dev_caps ex_loc .MIDIINCAPSA ex_in) = true ∧
    ex_in.szPname.length = MAXPNAMELEN ∧
    (ex_name_40.apply_in_place_c ex_loc .MIDIINCAPSA ex_in).2.szPname
      = List.replicate 40 65 ++ [0] ∧
    (ex_name_40.apply_in_place_c ex_loc .MIDIINCAPSA ex_in).2.szPname.length
      = MAXPNAMELEN + 9 := by
  decide

end WinMMWrapper
